import Mathlib

set_option maxRecDepth 16384

/-!
Verification of the dstack compose-hash tooling
(`get-compose-hash.py` and `verify-deployed-hash.py`).

The development shallowly embeds the Python source.  Python values parsed
from JSON/YAML are modelled by the inductive type `PyVal`; dictionaries are
association lists in insertion order (Python dicts preserve insertion order
and have unique keys).  Machinery notes:

* Finite floats are carried together with their decimal rendering
  (`PyFloat.finite rep`), since IEEE-754 `repr` formatting is outside the
  scope of this embedding; no claim below depends on it.
* Python's `sorted` raises `TypeError` on incomparable keys (e.g. `str`
  vs `int`).  The embedded comparison `key_le` is totalised on such pairs;
  every theorem below only exercises dictionaries whose keys are strings,
  where the embedding is exact (code-point lexicographic order).
* `hashlib.sha256(...).hexdigest()` is an uninterpreted parameter
  `sha256_hex : String → String`: the claims below concern the
  serialization and comparison protocol, not the hash function itself.
-/

/-- A Python float: either finite (carrying its decimal `repr` rendering),
or one of the non-finite values NaN, +inf, -inf. -/
inductive PyFloat where
  | finite (rep : String)
  | nan
  | inf
  | neginf
deriving DecidableEq, Repr

/-- A Python dictionary key, restricted to the JSON-coercible key types that
`json.dumps` accepts (`str`, `int`, `bool`, `None`). -/
inductive PyKey where
  | str (s : String)
  | int (n : Int)
  | bool (b : Bool)
  | none
deriving DecidableEq, Repr

/-- A Python value as produced by `json.load` / constructed by the scripts:
the JSON sum type plus non-finite floats, non-string dict keys, and
`object tyName` standing for an arbitrary non-JSON-serializable Python
object of type `tyName`. -/
inductive PyVal where
  | none
  | bool (b : Bool)
  | int (n : Int)
  | float (f : PyFloat)
  | str (s : String)
  | list (elts : List PyVal)
  | dict (items : List (PyKey × PyVal))
  | object (tyName : String)

/-- Lowercase hexadecimal digit. -/
def hex_digit (n : Nat) : Char :=
  if n < 10 then Char.ofNat (48 + n) else Char.ofNat (87 + n)

/-- Four lowercase hexadecimal digits, as in Python's `'\\u%04x'`. -/
def hex4 (n : Nat) : String :=
  String.mk [hex_digit (n / 4096 % 16), hex_digit (n / 256 % 16),
             hex_digit (n / 16 % 16), hex_digit (n % 16)]

/-- Escaping of one character per Python `json.dumps(..., ensure_ascii=False)`
(`json.encoder.py_encode_basestring`): quote, backslash and the named control
characters get two-character escapes, remaining chars below 0x20 get `\uXXXX`,
everything else (incl. non-ASCII and 0x7f) is left unescaped. -/
def escape_char (c : Char) : String :=
  if c = '\\' then "\\\\"
  else if c = '"' then "\\\""
  else if c = '\x08' then "\\b"
  else if c = '\x0c' then "\\f"
  else if c = '\n' then "\\n"
  else if c = '\x0d' then "\\r"
  else if c = '\t' then "\\t"
  else if c.toNat < 32 then "\\u" ++ hex4 c.toNat
  else String.singleton c

/-- JSON string literal encoding used by `json.dumps(..., ensure_ascii=False)`:
the escaped characters wrapped in double quotes. -/
def encode_basestring (s : String) : String :=
  "\"" ++ String.join (s.data.map escape_char) ++ "\""

/-- Rendering of a float by `json.dumps` (default `allow_nan=True`). -/
def py_float_json : PyFloat → String
  | .finite rep => rep
  | .nan => "NaN"
  | .inf => "Infinity"
  | .neginf => "-Infinity"

/-- `json.dumps` key coercion: string keys are JSON-escaped, `int`, `bool`
and `None` keys are silently coerced to their JSON scalar spelling wrapped
in quotes. -/
def key_json : PyKey → String
  | .str s => encode_basestring s
  | .int n => "\"" ++ toString n ++ "\""
  | .bool true => "\"true\""
  | .bool false => "\"false\""
  | .none => "\"null\""

mutual

/-- `json.dumps(v, separators=(isep, ksep), ensure_ascii=False)`.  Fails
(Python `TypeError`) exactly on values that are not JSON serializable. -/
def json_dumps (isep ksep : String) : PyVal → Except String String
  | .none => .ok "null"
  | .bool true => .ok "true"
  | .bool false => .ok "false"
  | .int n => .ok (toString n)
  | .float f => .ok (py_float_json f)
  | .str s => .ok (encode_basestring s)
  | .list l =>
      match dumps_elems isep ksep l with
      | .ok parts => .ok ("[" ++ String.intercalate isep parts ++ "]")
      | .error e => .error e
  | .dict l =>
      match dumps_items isep ksep l with
      | .ok parts => .ok ("\x7b" ++ String.intercalate isep parts ++ "\x7d")
      | .error e => .error e
  | .object tyName => .error ("Object of type " ++ tyName ++ " is not JSON serializable")

/-- Serialize the elements of a list left to right, stopping at the first
failure (as Python's encoder raises at the first bad element). -/
def dumps_elems (isep ksep : String) : List PyVal → Except String (List String)
  | [] => .ok []
  | v :: vs =>
      match json_dumps isep ksep v with
      | .error e => .error e
      | .ok s =>
          match dumps_elems isep ksep vs with
          | .error e => .error e
          | .ok rest => .ok (s :: rest)

/-- Serialize dict items in insertion order (`sort_keys=False`), each as
`key ++ ksep ++ value`, stopping at the first failure. -/
def dumps_items (isep ksep : String) : List (PyKey × PyVal) → Except String (List String)
  | [] => .ok []
  | (k, v) :: rest =>
      match json_dumps isep ksep v with
      | .error e => .error e
      | .ok s =>
          match dumps_items isep ksep rest with
          | .error e => .error e
          | .ok rs => .ok ((key_json k ++ ksep ++ s) :: rs)

end

/-- Rank used to totalise the key order across types (see `key_le`). -/
def key_rank : PyKey → Nat
  | .none => 0
  | .bool _ => 1
  | .int _ => 2
  | .str _ => 3

/-- The comparison Python's `sorted` applies to dict keys in
`sorted(obj.items())`: code-point lexicographic on strings, numeric on
`int`/`bool` (Python treats `True` as 1 and `False` as 0).  Python raises
`TypeError` on the remaining (cross-type) pairs; the embedding totalises
those by `key_rank` — no theorem below exercises them (all claims concern
string-keyed mappings). -/
def key_le (a b : PyKey) : Bool :=
  match a, b with
  | .str s, .str t => decide (s ≤ t)
  | .int m, .int n => decide (m ≤ n)
  | .bool x, .bool y => !x || y
  | .int m, .bool y => decide (m ≤ (if y then (1 : Int) else 0))
  | .bool x, .int n => decide ((if x then (1 : Int) else 0) ≤ n)
  | a, b => decide (key_rank a ≤ key_rank b)

/-- Ordering of dict items by key, as used by `sorted(obj.items())`
(tuple comparison starts with the keys; dict keys are unique, so the
comparison never reaches the values). -/
def pair_le (p q : PyKey × PyVal) : Prop := key_le p.1 q.1 = true

instance : DecidableRel pair_le :=
  fun p q => inferInstanceAs (Decidable (key_le p.1 q.1 = true))

/-- Strict key order on string keys (used only to state sortedness and
uniqueness of the sorted form; false on non-string keys). -/
def key_lt (a b : PyKey) : Bool :=
  match a, b with
  | .str s, .str t => decide (s < t)
  | _, _ => false

/-- Strict item order by key. -/
def pair_lt (p q : PyKey × PyVal) : Prop := key_lt p.1 q.1 = true

mutual

/-- `sort_object` from get-compose-hash.py: recursively sort dictionary
keys lexicographically for deterministic JSON (sorts the items, then
recurses into the values, in source order). -/
def sort_object : PyVal → PyVal
  | .list l => .list (sort_list l)
  | .dict l => .dict (sort_items (List.insertionSort pair_le l))
  | v => v
termination_by v => sizeOf v
decreasing_by
  all_goals simp_wf
  all_goals
    have hperm := (List.perm_insertionSort pair_le l).sizeOf_eq_sizeOf
  all_goals omega

/-- The list comprehension `[sort_object(item) for item in obj]`. -/
def sort_list : List PyVal → List PyVal
  | [] => []
  | v :: vs => sort_object v :: sort_list vs
termination_by l => sizeOf l
decreasing_by
  all_goals simp_wf <;> omega

/-- The dict comprehension `{key: sort_object(value) for key, value in ...}`. -/
def sort_items : List (PyKey × PyVal) → List (PyKey × PyVal)
  | [] => []
  | (k, v) :: rest => (k, sort_object v) :: sort_items rest
termination_by l => sizeOf l
decreasing_by
  all_goals simp_wf <;> omega

end

/-- `convert_special_values` from get-compose-hash.py: convert NaN and
±Infinity to `None`; all other scalars pass through unchanged. -/
def convert_special_values : PyVal → PyVal
  | .float .nan => .none
  | .float .inf => .none
  | .float .neginf => .none
  | v => v

mutual

/-- `process_data` from get-compose-hash.py: recurse through dicts and
lists, applying `convert_special_values` to scalars. -/
def process_data : PyVal → PyVal
  | .dict l => .dict (process_items l)
  | .list l => .list (process_list l)
  | v => convert_special_values v

/-- Elementwise `process_data` on a list. -/
def process_list : List PyVal → List PyVal
  | [] => []
  | v :: vs => process_data v :: process_list vs

/-- Itemwise `process_data` on dict items (keys unchanged). -/
def process_items : List (PyKey × PyVal) → List (PyKey × PyVal)
  | [] => []
  | (k, v) :: rest => (k, process_data v) :: process_items rest

end

/-- `to_deterministic_json` from get-compose-hash.py: sort, scrub
non-finite floats, then dump compactly with separators `(",", ":")` and
`ensure_ascii=False`. -/
def to_deterministic_json (data : PyVal) : Except String String :=
  json_dumps "," ":" (process_data (sort_object data))

/-- One step of Python `str.replace` scanning: replace every non-overlapping
occurrence of the pattern `p :: ps`, left to right, without rescanning
replaced text. -/
def repl_aux (p : Char) (ps rep : List Char) : List Char → List Char
  | [] => []
  | c :: cs =>
      if p = c ∧ ps.isPrefixOf cs then rep ++ repl_aux p ps rep (cs.drop ps.length)
      else c :: repl_aux p ps rep cs
termination_by l => l.length
decreasing_by
  all_goals simp_wf
  all_goals
    have _hd := List.length_drop ps.length cs
  all_goals omega

/-- Python `str.replace(pat, rep)` (all occurrences).  The scripts only call
it with the two fixed non-empty placeholder patterns, so the empty-pattern
case (where Python would interleave `rep` between characters) is mapped to
the identity. -/
def py_replace (s pat rep : String) : String :=
  match pat.data with
  | [] => s
  | p :: ps => String.mk (repl_aux p ps rep.data s.data)

/-- Does the pattern `p :: ps` occur as a contiguous substring? -/
def has_occ (p : Char) (ps : List Char) : List Char → Bool
  | [] => false
  | c :: cs => (p == c && ps.isPrefixOf cs) || has_occ p ps cs

/-- Python `s[1:-1]`: drop the first and last character. -/
def strip_outer (s : String) : String := (s.drop 1).dropRight 1

/-- Python `dict[key]` lookup on an insertion-ordered association list. -/
def py_get (l : List (PyKey × PyVal)) (k : PyKey) : Option PyVal :=
  match l with
  | [] => Option.none
  | (k', v) :: rest => if k' = k then some v else py_get rest k

/-- Python `dict[key] = value`: update the value in place if the key is
present (keeping its position), else append a new item. -/
def py_set_item (l : List (PyKey × PyVal)) (k : PyKey) (v : PyVal) : List (PyKey × PyVal) :=
  match l with
  | [] => [(k, v)]
  | (k', v') :: rest => if k' = k then (k', v) :: rest else (k', v') :: py_set_item rest k v

/-- Python `f"{x}"` / `str(x)` conversion as applied to the deployed salt in
verify-deployed-hash.py.  Faithful for `None`, booleans, ints, strings and
non-finite floats; the `str()` rendering of containers, objects and finite
floats (Python `repr`) is outside the scope of this embedding — no claim
exercises those as salt values. -/
def py_fstr : PyVal → String
  | .none => "None"
  | .bool true => "True"
  | .bool false => "False"
  | .int n => toString n
  | .float (.finite rep) => rep
  | .float .nan => "nan"
  | .float .inf => "inf"
  | .float .neginf => "-inf"
  | .str s => s
  | .list _ => "<list-str-rendering-out-of-scope>"
  | .dict _ => "<dict-str-rendering-out-of-scope>"
  | .object tyName => "<" ++ tyName ++ "-str-rendering-out-of-scope>"


/-- The part of the fixed DStack template before the `DOCKER_COMPOSE_CONTENT` placeholder. -/
def templ_T1 : String := "\x7b\n    \"allowed_envs\":[],\n    \"default_gateway_domain\":null,\n    \"docker_compose_file\":\""

/-- The part of the fixed DStack template between the `DOCKER_COMPOSE_CONTENT` and `PRE_LAUNCH_SCRIPT` placeholders. -/
def templ_T2 : String := "\",\n    \"features\":[\n        \"kms\",\n        \"tproxy-net\"\n    ],\n    \"gateway_enabled\":true,\n    \"kms_enabled\":true,\n    \"local_key_provider_enabled\":false,\n    \"manifest_version\":2,\n    \"name\":\"simple-det-app-verification\",\n    \"no_instance_id\":false,\n    \"pre_launch_script\":\""

/-- The part of the fixed DStack template between the `PRE_LAUNCH_SCRIPT` placeholder and the salt constant. -/
def templ_T3a : String := "\",\n    \"public_logs\":true,\n    \"public_sysinfo\":true,\n    \"runner\":\"docker-compose\",\n    \"salt\":\""

/-- The part of the fixed DStack template after the salt constant. -/
def templ_T3b : String := "\",\n    \"tproxy_enabled\":true\n\x7d"

/-- The exact literal template from `to_dstack_format_json` in get-compose-hash.py (byte for byte, including indentation and newlines). -/
def dstack_template : String := "\x7b\n    \"allowed_envs\":[],\n    \"default_gateway_domain\":null,\n    \"docker_compose_file\":\"DOCKER_COMPOSE_CONTENT\",\n    \"features\":[\n        \"kms\",\n        \"tproxy-net\"\n    ],\n    \"gateway_enabled\":true,\n    \"kms_enabled\":true,\n    \"local_key_provider_enabled\":false,\n    \"manifest_version\":2,\n    \"name\":\"simple-det-app-verification\",\n    \"no_instance_id\":false,\n    \"pre_launch_script\":\"PRE_LAUNCH_SCRIPT\",\n    \"public_logs\":true,\n    \"public_sysinfo\":true,\n    \"runner\":\"docker-compose\",\n    \"salt\":\"05fcefaecd984204bb6ccf16938eaad5\",\n    \"tproxy_enabled\":true\n\x7d"

/-- The exact default pre-launch script constant returned by `get_default_pre_launch_script` in get-compose-hash.py (byte for byte). -/
def default_pre_launch_script : String := "\n#!/bin/bash\necho \"----------------------------------------------\"\necho \"Running Phala Cloud Pre-Launch Script v0.0.7\"\necho \"----------------------------------------------\"\nset -e\n\n# Function: notify host\n\nnotify_host() \x7b\n    if command -v dstack-util >/dev/null 2>&1; then\n        dstack-util notify-host -e \"$1\" -d \"$2\"\n    else\n        tdxctl notify-host -e \"$1\" -d \"$2\"\n    fi\n\x7d\n\nnotify_host_hoot_info() \x7b\n    notify_host \"boot.progress\" \"$1\"\n\x7d\n\nnotify_host_hoot_error() \x7b\n    notify_host \"boot.error\" \"$1\"\n\x7d\n\n# Function: Perform Docker cleanup\nperform_cleanup() \x7b\n    echo \"Pruning unused images\"\n    docker image prune -af\n    echo \"Pruning unused volumes\"\n    docker volume prune -f\n    notify_host_hoot_info \"docker cleanup completed\"\n\x7d\n\n# Function: Check Docker login status without exposing credentials\ncheck_docker_login() \x7b\n    # Try to verify login status without exposing credentials\n    if docker info 2>/dev/null | grep -q \"Username\"; then\n        return 0\n    else\n        return 1\n    fi\n\x7d\n\n# Main logic starts here\necho \"Starting login process...\"\n\n# Check if Docker credentials exist\nif [[ -n \"$DSTACK_DOCKER_USERNAME\" && -n \"$DSTACK_DOCKER_PASSWORD\" ]]; then\n    echo \"Docker credentials found\"\n    \n    # Check if already logged in\n    if check_docker_login; then\n        echo \"Already logged in to Docker registry\"\n    else\n        echo \"Logging in to Docker registry...\"\n        # Login without exposing password in process list\n        if [[ -n \"$DSTACK_DOCKER_REGISTRY\" ]]; then\n            echo \"$DSTACK_DOCKER_PASSWORD\" | docker login -u \"$DSTACK_DOCKER_USERNAME\" --password-stdin \"$DSTACK_DOCKER_REGISTRY\"\n        else\n            echo \"$DSTACK_DOCKER_PASSWORD\" | docker login -u \"$DSTACK_DOCKER_USERNAME\" --password-stdin\n        fi\n        \n        if [ $? -eq 0 ]; then\n            echo \"Docker login successful\"\n        else\n            echo \"Docker login failed\"\n            notify_host_hoot_error \"docker login failed\"\n            exit 1\n        fi\n    fi\n# Check if AWS ECR credentials exist\nelif [[ -n \"$DSTACK_AWS_ACCESS_KEY_ID\" && -n \"$DSTACK_AWS_SECRET_ACCESS_KEY\" && -n \"$DSTACK_AWS_REGION\" && -n \"$DSTACK_AWS_ECR_REGISTRY\" ]]; then\n    echo \"AWS ECR credentials found\"\n    \n    # Check if AWS CLI is installed\n    if ! command -v aws &> /dev/null; then\n        notify_host_hoot_info \"awscli not installed, installing...\"\n        echo \"AWS CLI not installed, installing...\"\n        curl \"https://awscli.amazonaws.com/awscli-exe-linux-x86_64-2.24.14.zip\" -o \"awscliv2.zip\"\n        echo \"6ff031a26df7daebbfa3ccddc9af1450 awscliv2.zip\" | md5sum -c\n        if [ $? -ne 0 ]; then\n            echo \"MD5 checksum failed\"\n            notify_host_hoot_error \"awscli install failed\"\n            exit 1\n        fi\n        unzip awscliv2.zip &> /dev/null\n        ./aws/install\n        \n        # Clean up installation files\n        rm -rf awscliv2.zip aws\n    else\n        echo \"AWS CLI is already installed: $(which aws)\"\n    fi\n\n    # Set AWS credentials as environment variables\n    export AWS_ACCESS_KEY_ID=\"$DSTACK_AWS_ACCESS_KEY_ID\"\n    export AWS_SECRET_ACCESS_KEY=\"$DSTACK_AWS_SECRET_ACCESS_KEY\"\n    export AWS_DEFAULT_REGION=\"$DSTACK_AWS_REGION\"\n    \n    # Set session token if provided (for temporary credentials)\n    if [[ -n \"$DSTACK_AWS_SESSION_TOKEN\" ]]; then\n        echo \"AWS session token found, using temporary credentials\"\n        export AWS_SESSION_TOKEN=\"$DSTACK_AWS_SESSION_TOKEN\"\n    fi\n    \n    # Test AWS credentials before attempting ECR login\n    echo \"Testing AWS credentials...\"\n    if ! aws sts get-caller-identity &> /dev/null; then\n        echo \"AWS credentials test failed\"\n        notify_host_hoot_error \"Invalid AWS credentials\"\n        exit 1\n    fi\n\n    echo \"Logging in to AWS ECR...\"\n    aws ecr get-login-password --region $DSTACK_AWS_REGION | docker login --username AWS --password-stdin \"$DSTACK_AWS_ECR_REGISTRY\"\n    if [ $? -eq 0 ]; then\n        echo \"AWS ECR login successful\"\n        notify_host_hoot_info \"AWS ECR login successful\"\n    else\n        echo \"AWS ECR login failed\"\n        notify_host_hoot_error \"AWS ECR login failed\"\n        exit 1\n    fi\nfi\n\nperform_cleanup\n\n#\n# Set root password if DSTACK_ROOT_PASSWORD is set.\n#\nif [[ -n \"$DSTACK_ROOT_PASSWORD\" ]]; then\n    echo \"root:$DSTACK_ROOT_PASSWORD\" | chpasswd\n    unset $DSTACK_ROOT_PASSWORD\n    echo \"Root password set\"\nfi\nif [[ -n \"$DSTACK_ROOT_PUBLIC_KEY\" ]]; then\n    mkdir -p /root/.ssh\n    echo \"$DSTACK_ROOT_PUBLIC_KEY\" > /root/.ssh/authorized_keys\n    unset $DSTACK_ROOT_PUBLIC_KEY\n    echo \"Root public key set\"\nfi\n\n\nif [[ -e /var/run/dstack.sock ]]; then\n    export DSTACK_APP_ID=$(curl -s --unix-socket /var/run/dstack.sock http://dstack/Info | jq -j .app_id)\nelse\n    export DSTACK_APP_ID=$(curl -s --unix-socket /var/run/tappd.sock http://dstack/prpc/Tappd.Info | jq -j .app_id)\nfi\n# Check if app-compose.json has default_gateway_domain field and DSTACK_GATEWAY_DOMAIN is not set\n# If true, set DSTACK_GATEWAY_DOMAIN from app-compose.json\nif [[ $(jq \x27has(\"default_gateway_domain\")\x27 app-compose.json) == \"true\" && -z \"$DSTACK_GATEWAY_DOMAIN\" ]]; then\n    export DSTACK_GATEWAY_DOMAIN=$(jq -j \x27.default_gateway_domain\x27 app-compose.json)\nfi\nif [[ -n \"$DSTACK_GATEWAY_DOMAIN\" ]]; then\n    export DSTACK_APP_DOMAIN=$DSTACK_APP_ID\".\"$DSTACK_GATEWAY_DOMAIN\nfi\n\necho \"----------------------------------------------\"\necho \"Script execution completed\"\necho \"----------------------------------------------\"\n"

/-- The fixed salt constant `"05fcefaecd984204bb6ccf16938eaad5"` embedded in
the template and in `docker_compose_to_app_compose`. -/
def default_salt : String := "05fcefaecd984204bb6ccf16938eaad5"

/-- `to_dstack_format_json` from get-compose-hash.py: read the two
free-text fields from the manifest dict (Python raises `KeyError` when a
field is absent), JSON-escape them via `json.dumps(..., ensure_ascii=False)`
with the outer quotes stripped (`[1:-1]`), then substitute them into the
fixed template with two successive `str.replace` calls. -/
def to_dstack_format_json (data : List (PyKey × PyVal)) : Except String String :=
  match py_get data (.str "docker_compose_file") with
  | Option.none => .error "KeyError: docker_compose_file"
  | some docker_compose_content =>
    match py_get data (.str "pre_launch_script") with
    | Option.none => .error "KeyError: pre_launch_script"
    | some pre_launch_script =>
      match json_dumps ", " ": " docker_compose_content with
      | .error e => .error e
      | .ok dcj =>
        match json_dumps ", " ": " pre_launch_script with
        | .error e => .error e
        | .ok plj =>
          .ok (py_replace
                (py_replace dstack_template "DOCKER_COMPOSE_CONTENT" (strip_outer dcj))
                "PRE_LAUNCH_SCRIPT" (strip_outer plj))

/-- `get_compose_hash` from get-compose-hash.py: SHA-256 hex digest of the
UTF-8 bytes of the literal rendering.  The hash function is an
uninterpreted parameter `sha256_hex`. -/
def get_compose_hash (sha256_hex : String → String)
    (app_compose_data : List (PyKey × PyVal)) : Except String String :=
  (to_dstack_format_json app_compose_data).map sha256_hex

/-- `docker_compose_to_app_compose` from get-compose-hash.py, with the file
read abstracted to its content string: the fixed-schema manifest dict in
source insertion order. -/
def docker_compose_to_app_compose (docker_compose_content : String) : List (PyKey × PyVal) :=
  [ (.str "allowed_envs", .list []),
    (.str "default_gateway_domain", .none),
    (.str "docker_compose_file", .str docker_compose_content),
    (.str "features", .list [.str "kms", .str "tproxy-net"]),
    (.str "gateway_enabled", .bool true),
    (.str "kms_enabled", .bool true),
    (.str "local_key_provider_enabled", .bool false),
    (.str "manifest_version", .int 2),
    (.str "name", .str "simple-det-app-verification"),
    (.str "no_instance_id", .bool false),
    (.str "pre_launch_script", .str default_pre_launch_script),
    (.str "public_logs", .bool true),
    (.str "public_sysinfo", .bool true),
    (.str "runner", .str "docker-compose"),
    (.str "salt", .str default_salt),
    (.str "tproxy_enabled", .bool true) ]

/-- The f-string `our_formatted_json` from verify-deployed-hash.py: the
same fixed template, with the escaped local compose text, the escaped
default pre-launch script, and `f"{deployed_salt}"` interpolated directly
(no placeholder replacement). -/
def our_formatted_json (docker_compose_escaped pre_launch_escaped : String)
    (deployed_salt : PyVal) : String :=
  templ_T1 ++ docker_compose_escaped ++ templ_T2 ++ pre_launch_escaped ++
    templ_T3a ++ py_fstr deployed_salt ++ templ_T3b

/-- `verify_deployed_hash` from verify-deployed-hash.py, with file I/O
abstracted: `docker_compose_content` is the text of the local compose file,
`deployed_raw` the raw content of the deployed app-compose file, and
`deployed_app_compose` its parsed form.  Returns `true` (Matched) iff the
SHA-256 hex digest of the locally rendered manifest equals the digest of
the deployed file's bytes. -/
def verify_deployed_hash (sha256_hex : String → String)
    (docker_compose_content : String) (deployed_raw : String)
    (deployed_app_compose : List (PyKey × PyVal)) : Except String Bool :=
  let deployed_salt := (py_get deployed_app_compose (.str "salt")).getD .none
  let deployed_hash := sha256_hex deployed_raw
  let our_app_compose :=
    py_set_item (docker_compose_to_app_compose docker_compose_content) (.str "salt") deployed_salt
  match py_get our_app_compose (.str "docker_compose_file") with
  | Option.none => .error "KeyError: docker_compose_file"
  | some dc =>
    match py_get our_app_compose (.str "pre_launch_script") with
    | Option.none => .error "KeyError: pre_launch_script"
    | some pl =>
      match json_dumps ", " ": " dc with
      | .error e => .error e
      | .ok dcj =>
        match json_dumps ", " ": " pl with
        | .error e => .error e
        | .ok plj =>
          let our_hash :=
            sha256_hex (our_formatted_json (strip_outer dcj) (strip_outer plj) deployed_salt)
          .ok (our_hash == deployed_hash)

/-- The `__main__` surface of verify-deployed-hash.py:
`sys.exit(0 if success else 1)`; an uncaught exception also terminates
with a non-zero status. -/
def verify_main_exit (sha256_hex : String → String)
    (docker_compose_content : String) (deployed_raw : String)
    (deployed_app_compose : List (PyKey × PyVal)) : Nat :=
  match verify_deployed_hash sha256_hex docker_compose_content deployed_raw deployed_app_compose with
  | .ok true => 0
  | .ok false => 1
  | .error _ => 1

mutual

/-- The transformation described by the spec sentence "Recursively replace
any floating-point NaN or ±Infinity scalar with Null", written from the
spec's words (independently of the code's `process_data`) so the code can
be compared against it. -/
def scrub_nonfinite : PyVal → PyVal
  | .float .nan => .none
  | .float .inf => .none
  | .float .neginf => .none
  | .list l => .list (scrub_list l)
  | .dict l => .dict (scrub_items l)
  | v => v

/-- Elementwise `scrub_nonfinite`. -/
def scrub_list : List PyVal → List PyVal
  | [] => []
  | v :: vs => scrub_nonfinite v :: scrub_list vs

/-- Itemwise `scrub_nonfinite` on dict values. -/
def scrub_items : List (PyKey × PyVal) → List (PyKey × PyVal)
  | [] => []
  | (k, v) :: rest => (k, scrub_nonfinite v) :: scrub_items rest

end

mutual

/-- Membership in the JSON Value sum type
`{Null, Boolean, Number, String, Sequence<Value>, Mapping<String,Value>}`:
mappings must have string keys, and `object` values are outside. -/
def is_json_value : PyVal → Bool
  | .list l => is_json_list l
  | .dict l => is_json_items l
  | .object _ => false
  | _ => true

/-- All elements inside the JSON Value sum type. -/
def is_json_list : List PyVal → Bool
  | [] => true
  | v :: vs => is_json_value v && is_json_list vs

/-- All keys strings and all values inside the JSON Value sum type. -/
def is_json_items : List (PyKey × PyVal) → Bool
  | [] => true
  | (k, v) :: rest =>
      (match k with | .str _ => true | _ => false) && is_json_value v && is_json_items rest

end

mutual

/-- Does the value contain a non-JSON-serializable `object` anywhere? -/
def contains_object : PyVal → Bool
  | .object _ => true
  | .list l => contains_object_list l
  | .dict l => contains_object_items l
  | _ => false

/-- Elementwise `contains_object`. -/
def contains_object_list : List PyVal → Bool
  | [] => false
  | v :: vs => contains_object v || contains_object_list vs

/-- Itemwise `contains_object` on dict values. -/
def contains_object_items : List (PyKey × PyVal) → Bool
  | [] => false
  | (_, v) :: rest => contains_object v || contains_object_items rest

end

/-- All keys in the list are strings. -/
def all_str_keys : List PyKey → Bool
  | [] => true
  | .str _ :: ks => all_str_keys ks
  | _ => false

mutual

/-- Well-formedness of a value as a real Python structure built from JSON
mappings: every dictionary (at any depth, including inside sequences) has
string keys with no duplicates.  This is the domain of the key-order
invariance claim. -/
def wf_str_keys : PyVal → Bool
  | .list l => wf_str_keys_list l
  | .dict l =>
      all_str_keys (l.map Prod.fst) && decide (l.map Prod.fst).Nodup && wf_str_keys_items l
  | _ => true

/-- Elementwise `wf_str_keys`. -/
def wf_str_keys_list : List PyVal → Bool
  | [] => true
  | v :: vs => wf_str_keys v && wf_str_keys_list vs

/-- Itemwise `wf_str_keys` on dict values. -/
def wf_str_keys_items : List (PyKey × PyVal) → Bool
  | [] => true
  | (_, v) :: rest => wf_str_keys v && wf_str_keys_items rest

end

mutual

/-- Two Python values are equal up to a permutation of the insertion order
of the items of any of their dictionaries (at any nesting depth, including
dictionaries inside sequences).  Scalars must be equal, sequences keep
their element order, and each dictionary's item list may be permuted after
relating the values pointwise. -/
inductive PermEquiv : PyVal → PyVal → Prop where
  | none : PermEquiv .none .none
  | bool (b : Bool) : PermEquiv (.bool b) (.bool b)
  | int (n : Int) : PermEquiv (.int n) (.int n)
  | float (f : PyFloat) : PermEquiv (.float f) (.float f)
  | str (s : String) : PermEquiv (.str s) (.str s)
  | object (t : String) : PermEquiv (.object t) (.object t)
  | list {l₁ l₂ : List PyVal} :
      PermEquivList l₁ l₂ → PermEquiv (.list l₁) (.list l₂)
  | dict {l₁ l' l₂ : List (PyKey × PyVal)} :
      PermEquivItems l₁ l' → l'.Perm l₂ → PermEquiv (.dict l₁) (.dict l₂)

/-- Pointwise `PermEquiv` on lists (element order kept). -/
inductive PermEquivList : List PyVal → List PyVal → Prop where
  | nil : PermEquivList [] []
  | cons {v w : PyVal} {vs ws : List PyVal} :
      PermEquiv v w → PermEquivList vs ws → PermEquivList (v :: vs) (w :: ws)

/-- Pointwise `PermEquiv` on dict items: keys equal, values equivalent. -/
inductive PermEquivItems : List (PyKey × PyVal) → List (PyKey × PyVal) → Prop where
  | nil : PermEquivItems [] []
  | cons {k : PyKey} {v w : PyVal} {ps qs : List (PyKey × PyVal)} :
      PermEquiv v w → PermEquivItems ps qs →
      PermEquivItems ((k, v) :: ps) ((k, w) :: qs)

end

/-! ## Helper lemmas -/

/-- Reduction of the literal renderer when both free-text fields are
present string fields. -/
lemma to_dstack_format_json_str (data : List (PyKey × PyVal)) (dct plt : String)
    (h1 : py_get data (.str "docker_compose_file") = some (.str dct))
    (h2 : py_get data (.str "pre_launch_script") = some (.str plt)) :
    to_dstack_format_json data =
      .ok (py_replace (py_replace dstack_template "DOCKER_COMPOSE_CONTENT"
            (strip_outer (encode_basestring dct)))
          "PRE_LAUNCH_SCRIPT" (strip_outer (encode_basestring plt))) := by
  unfold to_dstack_format_json
  rw [h1, h2]
  rfl

/-! ## Claim theorems -/

/-- C9: the literal rendering produced by `to_dstack_format_json` depends
only on the `docker_compose_file` and `pre_launch_script` fields of its
input mapping: two manifests agreeing on those two fields render
byte-identically, whatever their other fields (salt, name, features,
manifest_version, ...) hold. -/
theorem claim9_render_depends_only_on_two_fields
    (d₁ d₂ : List (PyKey × PyVal))
    (h1 : py_get d₁ (.str "docker_compose_file") = py_get d₂ (.str "docker_compose_file"))
    (h2 : py_get d₁ (.str "pre_launch_script") = py_get d₂ (.str "pre_launch_script")) :
    to_dstack_format_json d₁ = to_dstack_format_json d₂ := by
  unfold to_dstack_format_json
  rw [h1, h2]

/-- Witness for C9 at concrete manifests differing in salt and an extra
field. -/
theorem claim9_witness :
    py_get [(PyKey.str "docker_compose_file", PyVal.str "c"),
            (PyKey.str "pre_launch_script", PyVal.str "p"),
            (PyKey.str "salt", PyVal.str "aa")] (.str "docker_compose_file") =
      py_get [(PyKey.str "docker_compose_file", PyVal.str "c"),
              (PyKey.str "pre_launch_script", PyVal.str "p"),
              (PyKey.str "salt", PyVal.str "bb"),
              (PyKey.str "extra", PyVal.int 7)] (.str "docker_compose_file")
    ∧ py_get [(PyKey.str "docker_compose_file", PyVal.str "c"),
              (PyKey.str "pre_launch_script", PyVal.str "p"),
              (PyKey.str "salt", PyVal.str "aa")] (.str "pre_launch_script") =
        py_get [(PyKey.str "docker_compose_file", PyVal.str "c"),
                (PyKey.str "pre_launch_script", PyVal.str "p"),
                (PyKey.str "salt", PyVal.str "bb"),
                (PyKey.str "extra", PyVal.int 7)] (.str "pre_launch_script")
    ∧ to_dstack_format_json
        [(PyKey.str "docker_compose_file", PyVal.str "c"),
         (PyKey.str "pre_launch_script", PyVal.str "p"),
         (PyKey.str "salt", PyVal.str "aa")] =
      to_dstack_format_json
        [(PyKey.str "docker_compose_file", PyVal.str "c"),
         (PyKey.str "pre_launch_script", PyVal.str "p"),
         (PyKey.str "salt", PyVal.str "bb"),
         (PyKey.str "extra", PyVal.int 7)] :=
  ⟨rfl, rfl, claim9_render_depends_only_on_two_fields _ _ rfl rfl⟩

/-- C8: the escaping used by the literal renderer and by the canonical
serializer on a string value is identical: `json.dumps` of the string (the
form whose outer quotes the literal path strips) equals the canonical
serialization of that string value, hence the quote-stripped forms agree
too — including for non-ASCII and control characters. -/
theorem claim8_escaping_identical (s : String) :
    json_dumps ", " ": " (.str s) = to_deterministic_json (.str s) ∧
      Except.map strip_outer (json_dumps ", " ": " (.str s)) =
        Except.map strip_outer (to_deterministic_json (.str s)) := by
  have h : json_dumps ", " ": " (.str s) = to_deterministic_json (.str s) := by
    simp [to_deterministic_json, sort_object, process_data, convert_special_values, json_dumps]
  exact ⟨h, by rw [h]⟩

/-- C4: verification is exact-string digest comparison: `verify` computes
the digest of the locally rendered manifest and returns Matched (`true`)
exactly when it is byte-equal to the digest of the deployed file's bytes,
Mismatched (`false`) otherwise (never an error for these inputs); the
command-line surface exits with status 0 on Matched and 1 on Mismatched. -/
theorem claim4_exact_match_and_exit_status
    (sha256_hex : String → String) (ct raw : String) (dep : List (PyKey × PyVal)) :
    verify_deployed_hash sha256_hex ct raw dep =
        .ok ((sha256_hex (our_formatted_json (strip_outer (encode_basestring ct))
              (strip_outer (encode_basestring default_pre_launch_script))
              ((py_get dep (.str "salt")).getD .none))) == sha256_hex raw)
    ∧ (verify_deployed_hash sha256_hex ct raw dep = .ok true ↔
        sha256_hex (our_formatted_json (strip_outer (encode_basestring ct))
          (strip_outer (encode_basestring default_pre_launch_script))
          ((py_get dep (.str "salt")).getD .none)) = sha256_hex raw)
    ∧ (verify_main_exit sha256_hex ct raw dep = 0 ↔
        verify_deployed_hash sha256_hex ct raw dep = .ok true)
    ∧ (verify_main_exit sha256_hex ct raw dep = 0 ∨
        verify_main_exit sha256_hex ct raw dep = 1) := by
  have hr : verify_deployed_hash sha256_hex ct raw dep =
      .ok ((sha256_hex (our_formatted_json (strip_outer (encode_basestring ct))
            (strip_outer (encode_basestring default_pre_launch_script))
            ((py_get dep (.str "salt")).getD .none))) == sha256_hex raw) := rfl
  refine ⟨hr, ?_, ?_, ?_⟩
  · rw [hr]
    simp [beq_iff_eq]
  · unfold verify_main_exit
    rw [hr]
    cases hb : (sha256_hex (our_formatted_json (strip_outer (encode_basestring ct))
        (strip_outer (encode_basestring default_pre_launch_script))
        ((py_get dep (.str "salt")).getD .none))) == sha256_hex raw <;> simp
  · unfold verify_main_exit
    rw [hr]
    cases hb : (sha256_hex (our_formatted_json (strip_outer (encode_basestring ct))
        (strip_outer (encode_basestring default_pre_launch_script))
        ((py_get dep (.str "salt")).getD .none))) == sha256_hex raw <;> simp

/-- C3: `verify` injects the salt extracted from the deployed manifest
document into the locally rebuilt manifest: when the deployed document's
salt field holds a string different from the default constant, the locally
rendered document that `verify` hashes contains exactly that deployed
salt value at the salt position. -/
theorem claim3_verify_uses_deployed_salt
    (sha256_hex : String → String) (ct raw s : String) (dep : List (PyKey × PyVal))
    (hs : py_get dep (.str "salt") = some (.str s)) (_hne : s ≠ default_salt) :
    ∃ pre suf,
      our_formatted_json (strip_outer (encode_basestring ct))
          (strip_outer (encode_basestring default_pre_launch_script))
          ((py_get dep (.str "salt")).getD .none) = pre ++ s ++ suf
      ∧ verify_deployed_hash sha256_hex ct raw dep =
          .ok ((sha256_hex (pre ++ s ++ suf)) == sha256_hex raw) := by
  have h1 : (py_get dep (.str "salt")).getD .none = .str s := by rw [hs]; rfl
  refine ⟨templ_T1 ++ strip_outer (encode_basestring ct) ++ templ_T2 ++
      strip_outer (encode_basestring default_pre_launch_script) ++ templ_T3a,
    templ_T3b, ?_, ?_⟩
  · rw [our_formatted_json, h1]
    rfl
  · have hr : verify_deployed_hash sha256_hex ct raw dep =
        .ok ((sha256_hex (our_formatted_json (strip_outer (encode_basestring ct))
              (strip_outer (encode_basestring default_pre_launch_script))
              ((py_get dep (.str "salt")).getD .none))) == sha256_hex raw) := rfl
    rw [hr, our_formatted_json, h1]
    rfl

/-- Witness for C3: a deployed document whose salt differs from the
default constant. -/
theorem claim3_witness :
    py_get [(PyKey.str "salt", PyVal.str "deadbeef")] (.str "salt") =
        some (.str "deadbeef")
    ∧ "deadbeef" ≠ default_salt
    ∧ ∃ pre suf,
        our_formatted_json (strip_outer (encode_basestring "c"))
            (strip_outer (encode_basestring default_pre_launch_script))
            ((py_get [(PyKey.str "salt", PyVal.str "deadbeef")] (.str "salt")).getD .none) =
          pre ++ "deadbeef" ++ suf
        ∧ verify_deployed_hash (fun _ => "h") "c" "r"
              [(PyKey.str "salt", PyVal.str "deadbeef")] =
            .ok (((fun _ => "h") (pre ++ "deadbeef" ++ suf) : String) == "h") := by
  refine ⟨rfl, by decide, ?_⟩
  have h := claim3_verify_uses_deployed_salt (fun _ => "h") "c" "r" "deadbeef"
    [(PyKey.str "salt", PyVal.str "deadbeef")] rfl (by decide)
  exact h

/-- C10: when the deployed manifest document has no salt key, `verify`
does not fail: the extracted salt is Python `None`, the locally rendered
manifest embeds the four characters `None` as the salt field's string
value, and verification proceeds to the normal digest comparison. -/
theorem claim10_absent_salt_renders_None
    (sha256_hex : String → String) (ct raw : String) (dep : List (PyKey × PyVal))
    (hs : py_get dep (.str "salt") = Option.none) :
    verify_deployed_hash sha256_hex ct raw dep =
      .ok ((sha256_hex (templ_T1 ++ strip_outer (encode_basestring ct) ++ templ_T2 ++
            strip_outer (encode_basestring default_pre_launch_script) ++ templ_T3a ++
            "None" ++ templ_T3b)) == sha256_hex raw)
    ∧ (verify_deployed_hash sha256_hex ct raw dep = .ok true ∨
        verify_deployed_hash sha256_hex ct raw dep = .ok false) := by
  have h1 : (py_get dep (.str "salt")).getD .none = PyVal.none := by rw [hs]; rfl
  have hr : verify_deployed_hash sha256_hex ct raw dep =
      .ok ((sha256_hex (our_formatted_json (strip_outer (encode_basestring ct))
            (strip_outer (encode_basestring default_pre_launch_script))
            ((py_get dep (.str "salt")).getD .none))) == sha256_hex raw) := rfl
  constructor
  · rw [hr, our_formatted_json, h1]
    rfl
  · rw [hr]
    cases hb : (sha256_hex (our_formatted_json (strip_outer (encode_basestring ct))
        (strip_outer (encode_basestring default_pre_launch_script))
        ((py_get dep (.str "salt")).getD .none))) == sha256_hex raw
    · right; rfl
    · left; rfl

/-- Witness for C10: an empty deployed document (no salt key). -/
theorem claim10_witness :
    py_get ([] : List (PyKey × PyVal)) (.str "salt") = Option.none
    ∧ (verify_deployed_hash (fun _ => "h") "c" "r" [] =
        .ok (((fun _ => "h") (templ_T1 ++ strip_outer (encode_basestring "c") ++ templ_T2 ++
              strip_outer (encode_basestring default_pre_launch_script) ++ templ_T3a ++
              "None" ++ templ_T3b) : String) == "h")
      ∧ (verify_deployed_hash (fun _ => "h") "c" "r" [] = .ok true ∨
          verify_deployed_hash (fun _ => "h") "c" "r" [] = .ok false)) :=
  ⟨rfl, claim10_absent_salt_renders_None (fun _ => "h") "c" "r" [] rfl⟩

/-- Unfolding of `has_occ` at a cons cell. -/
lemma has_occ_cons (p c : Char) (ps cs : List Char) :
    has_occ p ps (c :: cs) = ((p == c && ps.isPrefixOf cs) || has_occ p ps cs) := rfl

/-- Unfolding of `repl_aux` at a cons cell. -/
lemma repl_aux_cons (p c : Char) (ps rep cs : List Char) :
    repl_aux p ps rep (c :: cs) =
      if p = c ∧ ps.isPrefixOf cs then rep ++ repl_aux p ps rep (cs.drop ps.length)
      else c :: repl_aux p ps rep cs := by
  simp only [repl_aux]

/-- Unfolding of `repl_aux` at nil. -/
lemma repl_aux_nil (p : Char) (ps rep : List Char) : repl_aux p ps rep [] = [] := by
  simp only [repl_aux]

/-- A string in which the pattern does not occur is left unchanged by
replacement. -/
lemma repl_aux_no_occ {p : Char} {ps : List Char} (rep : List Char) :
    ∀ {s : List Char}, has_occ p ps s = false → repl_aux p ps rep s = s := by
  intro s
  induction s with
  | nil => intro _; exact repl_aux_nil p ps rep
  | cons c cs ih =>
      intro h
      rw [has_occ_cons, Bool.or_eq_false_iff, Bool.and_eq_false_iff] at h
      obtain ⟨h1, h2⟩ := h
      rw [repl_aux_cons, if_neg, ih h2]
      rintro ⟨hpc, hpre⟩
      simp [hpc, hpre] at h1

/-- Replacement skips a clean leading segment: if the pattern has no
occurrence starting strictly inside `A ++ pat` (equivalently, none inside
its `dropLast`), then replacing in `A ++ pat ++ B` substitutes the
occurrence at the junction and continues after it. -/
lemma repl_aux_skip {p : Char} {ps : List Char} (rep : List Char) :
    ∀ (A B : List Char),
      has_occ p ps (A ++ p :: ps).dropLast = false →
      repl_aux p ps rep (A ++ (p :: ps) ++ B) = A ++ rep ++ repl_aux p ps rep B := by
  intro A
  induction A with
  | nil =>
      intro B _
      simp only [List.nil_append, List.cons_append]
      rw [repl_aux_cons, if_pos ⟨rfl, List.isPrefixOf_iff_prefix.mpr (List.prefix_append ps B)⟩,
        List.drop_left ps B]
  | cons a A ih =>
      intro B h
      have hne : A ++ p :: ps ≠ [] := by simp
      rw [List.cons_append, List.dropLast_cons_of_ne_nil hne, has_occ_cons,
        Bool.or_eq_false_iff, Bool.and_eq_false_iff] at h
      obtain ⟨h1, h2⟩ := h
      have hcond : ¬(p = a ∧ ps.isPrefixOf (A ++ (p :: ps) ++ B) = true) := by
        rintro ⟨hpa, hpre⟩
        have hp1 : ps <+: A ++ (p :: ps) ++ B := List.isPrefixOf_iff_prefix.mp hpre
        have hp2 : (A ++ p :: ps).dropLast <+: A ++ (p :: ps) ++ B := by
          have hd : (A ++ p :: ps).dropLast <+: A ++ p :: ps := List.dropLast_prefix _
          have ha : A ++ p :: ps <+: (A ++ p :: ps) ++ B := List.prefix_append _ B
          have hall := hd.trans ha
          simpa [List.append_assoc] using hall
        have hlen : ps.length ≤ (A ++ p :: ps).dropLast.length := by
          simp [List.length_dropLast, List.length_append]
        have hps : ps <+: (A ++ p :: ps).dropLast :=
          List.prefix_of_prefix_length_le hp1 hp2 hlen
        rcases h1 with h1 | h1
        · simp [hpa] at h1
        · rw [List.isPrefixOf_iff_prefix.mpr hps] at h1
          cases h1
      simp only [List.cons_append]
      rw [repl_aux_cons, if_neg hcond, ih B h2]

/-- Any occurrence of the pattern in `X ++ Y` lies inside `X`, inside `Y`,
or spans the boundary: a nonempty proper prefix of the pattern is a suffix
of `X` and the rest of the pattern is a prefix of `Y`. -/
lemma has_occ_append {p : Char} {ps : List Char} :
    ∀ (X Y : List Char), has_occ p ps (X ++ Y) = true →
      has_occ p ps X = true ∨ has_occ p ps Y = true ∨
        ∃ n, 0 < n ∧ n < (p :: ps).length ∧
          ((p :: ps).take n).isSuffixOf X = true ∧
          ((p :: ps).drop n).isPrefixOf Y = true := by
  intro X
  induction X with
  | nil =>
      intro Y h
      right; left
      simpa using h
  | cons c cs ih =>
      intro Y h
      rw [List.cons_append, has_occ_cons, Bool.or_eq_true] at h
      rcases h with hhead | htail
      · rw [Bool.and_eq_true] at hhead
        obtain ⟨hpc, hpre⟩ := hhead
        have hpc' : p = c := by simpa using hpc
        have hpre' : ps <+: cs ++ Y := List.isPrefixOf_iff_prefix.mp hpre
        by_cases hlen : ps.length ≤ cs.length
        · left
          rw [has_occ_cons, hpc]
          have hcs : ps <+: cs :=
            List.prefix_of_prefix_length_le hpre' (List.prefix_append cs Y) hlen
          rw [List.isPrefixOf_iff_prefix.mpr hcs]
          simp
        · right; right
          push_neg at hlen
          obtain ⟨t, ht⟩ := hpre'
          refine ⟨cs.length + 1, Nat.succ_pos _, by simp; omega, ?_, ?_⟩
          · have h1 := congrArg (List.take cs.length) ht
            rw [List.take_left, List.take_append_eq_append_take,
              Nat.sub_eq_zero_of_le (le_of_lt hlen)] at h1
            have htake : ps.take cs.length = cs := by simpa using h1
            have ht2 : (p :: ps).take (cs.length + 1) = c :: cs := by
              simp [htake, hpc']
            rw [ht2]
            simp [List.isSuffixOf_iff_suffix]
          · have h1 := congrArg (List.drop cs.length) ht
            rw [List.drop_left, List.drop_append_eq_append_drop,
              Nat.sub_eq_zero_of_le (le_of_lt hlen)] at h1
            have hd2 : (p :: ps).drop (cs.length + 1) = ps.drop cs.length := by simp
            rw [hd2, List.isPrefixOf_iff_prefix]
            exact ⟨t.drop 0, h1.symm.symm⟩
      · rcases ih Y htail with h | h | ⟨n, hn0, hnl, hsuf, hpre⟩
        · left
          rw [has_occ_cons, h]
          simp
        · right; left; exact h
        · right; right
          refine ⟨n, hn0, hnl, ?_, hpre⟩
          have hsx := List.isSuffixOf_iff_suffix.mp hsuf
          exact List.isSuffixOf_iff_suffix.mpr (hsx.trans (List.suffix_cons c cs))

/-- No occurrence of `PRE_LAUNCH_SCRIPT` starts strictly before the
placeholder when scanning the partially filled template, provided the
substituted compose text contains none: occurrences cannot span the
junctions (the template text around the placeholder starts with a quote
character while every proper prefix/suffix of the placeholder starts and
ends with letters). -/
lemma no_occ_P2_before_placeholder (dce : List Char)
    (h : has_occ 'P' "RE_LAUNCH_SCRIPT".data dce = false) :
    has_occ 'P' "RE_LAUNCH_SCRIPT".data
      ((templ_T1.data ++ dce ++ templ_T2.data ++ 'P' :: "RE_LAUNCH_SCRIPT".data).dropLast)
      = false := by
  rw [List.dropLast_append_cons]
  by_contra hN
  rw [Bool.not_eq_false] at hN
  have hN' : has_occ 'P' "RE_LAUNCH_SCRIPT".data
      (templ_T1.data ++ (dce ++ (templ_T2.data ++
        ('P' :: "RE_LAUNCH_SCRIPT".data).dropLast))) = true := by
    simpa [List.append_assoc] using hN
  have spanT1 : ∀ n, n < ('P' :: "RE_LAUNCH_SCRIPT".data).length →
      ¬(0 < n ∧ (('P' :: "RE_LAUNCH_SCRIPT".data).take n).isSuffixOf templ_T1.data = true) := by
    decide
  have occT1 : has_occ 'P' "RE_LAUNCH_SCRIPT".data templ_T1.data = false := by decide
  have occT2 : has_occ 'P' "RE_LAUNCH_SCRIPT".data
      (templ_T2.data ++ ('P' :: "RE_LAUNCH_SCRIPT".data).dropLast) = false := by decide
  have spanT2 : ∀ n, n < ('P' :: "RE_LAUNCH_SCRIPT".data).length →
      ¬(0 < n ∧ (('P' :: "RE_LAUNCH_SCRIPT".data).drop n).isPrefixOf
          (templ_T2.data ++ ('P' :: "RE_LAUNCH_SCRIPT".data).dropLast) = true) := by
    decide
  rcases has_occ_append _ _ hN' with h1 | h1 | ⟨n, hn0, hnl, hsuf, _⟩
  · rw [occT1] at h1; cases h1
  · rcases has_occ_append _ _ h1 with h2 | h2 | ⟨n, hn0, hnl, _, hpre⟩
    · rw [h] at h2; cases h2
    · rw [occT2] at h2; cases h2
    · exact spanT2 n hnl ⟨hn0, hpre⟩
  · exact spanT1 n hnl ⟨hn0, hsuf⟩

/-- Core substitution computation: replacing the two placeholders in the
template yields the surrounding template bytes unchanged with the two
payloads at the placeholder positions, provided the compose payload
contains no occurrence of `PRE_LAUNCH_SCRIPT`. -/
lemma dstack_render_core (dce ple : List Char)
    (h : has_occ 'P' "RE_LAUNCH_SCRIPT".data dce = false) :
    repl_aux 'P' "RE_LAUNCH_SCRIPT".data ple
      (repl_aux 'D' "OCKER_COMPOSE_CONTENT".data dce dstack_template.data) =
    templ_T1.data ++ dce ++ templ_T2.data ++ ple ++ templ_T3a.data ++
      default_salt.data ++ templ_T3b.data := by
  have htempl : dstack_template.data =
      templ_T1.data ++ ('D' :: "OCKER_COMPOSE_CONTENT".data) ++
        (templ_T2.data ++ ('P' :: "RE_LAUNCH_SCRIPT".data) ++
          (templ_T3a.data ++ default_salt.data ++ templ_T3b.data)) := by decide
  have hskip1 : has_occ 'D' "OCKER_COMPOSE_CONTENT".data
      ((templ_T1.data ++ 'D' :: "OCKER_COMPOSE_CONTENT".data).dropLast) = false := by decide
  have hno1 : has_occ 'D' "OCKER_COMPOSE_CONTENT".data
      (templ_T2.data ++ ('P' :: "RE_LAUNCH_SCRIPT".data) ++
        (templ_T3a.data ++ default_salt.data ++ templ_T3b.data)) = false := by decide
  have hno2 : has_occ 'P' "RE_LAUNCH_SCRIPT".data
      (templ_T3a.data ++ default_salt.data ++ templ_T3b.data) = false := by decide
  rw [htempl]
  rw [repl_aux_skip dce templ_T1.data _ hskip1]
  rw [repl_aux_no_occ dce hno1]
  have hassoc : templ_T1.data ++ dce ++
      (templ_T2.data ++ ('P' :: "RE_LAUNCH_SCRIPT".data) ++
        (templ_T3a.data ++ default_salt.data ++ templ_T3b.data)) =
      templ_T1.data ++ dce ++ templ_T2.data ++ ('P' :: "RE_LAUNCH_SCRIPT".data) ++
        (templ_T3a.data ++ default_salt.data ++ templ_T3b.data) := by
    simp [List.append_assoc]
  rw [hassoc]
  rw [repl_aux_skip ple (templ_T1.data ++ dce ++ templ_T2.data) _
    (no_occ_P2_before_placeholder dce h)]
  rw [repl_aux_no_occ ple hno2]
  simp [List.append_assoc]

/-- String-level form of `dstack_render_core`, phrased on the two
`str.replace` calls of `to_dstack_format_json`. -/
lemma render_string_level (dce ple : String)
    (h : has_occ 'P' "RE_LAUNCH_SCRIPT".data dce.data = false) :
    py_replace (py_replace dstack_template "DOCKER_COMPOSE_CONTENT" dce)
        "PRE_LAUNCH_SCRIPT" ple =
      templ_T1 ++ dce ++ templ_T2 ++ ple ++ templ_T3a ++ default_salt ++ templ_T3b := by
  obtain ⟨dl⟩ := dce
  obtain ⟨pl⟩ := ple
  show String.mk (repl_aux 'P' "RE_LAUNCH_SCRIPT".data pl
      (repl_aux 'D' "OCKER_COMPOSE_CONTENT".data dl dstack_template.data)) = _
  rw [dstack_render_core dl pl h]
  rfl

/-- C2 fails on the code as stated for inputs containing placeholder-like
substrings: a compose text equal to `PRE_LAUNCH_SCRIPT` is first
substituted into the template and then itself replaced by the boot-script
payload by the second `str.replace`, so the rendering does not embed the
escaped compose text verbatim (the docker_compose_file position holds `B`
instead). -/
theorem claim2_counterexample :
    to_dstack_format_json
        [(.str "docker_compose_file", .str "PRE_LAUNCH_SCRIPT"),
         (.str "pre_launch_script", .str "B")] =
      .ok (templ_T1 ++ "B" ++ templ_T2 ++ "B" ++ templ_T3a ++ default_salt ++ templ_T3b)
    ∧ templ_T1 ++ "B" ++ templ_T2 ++ "B" ++ templ_T3a ++ default_salt ++ templ_T3b ≠
        templ_T1 ++ "PRE_LAUNCH_SCRIPT" ++ templ_T2 ++ "B" ++ templ_T3a ++
          default_salt ++ templ_T3b := by
  constructor
  · rw [to_dstack_format_json_str
      [(.str "docker_compose_file", .str "PRE_LAUNCH_SCRIPT"),
       (.str "pre_launch_script", .str "B")] "PRE_LAUNCH_SCRIPT" "B" rfl rfl]
    congr 1
    show String.mk (repl_aux 'P' "RE_LAUNCH_SCRIPT".data "B".data
        (repl_aux 'D' "OCKER_COMPOSE_CONTENT".data "PRE_LAUNCH_SCRIPT".data
          dstack_template.data)) = _
    have htempl : dstack_template.data =
        templ_T1.data ++ ('D' :: "OCKER_COMPOSE_CONTENT".data) ++
          (templ_T2.data ++ ('P' :: "RE_LAUNCH_SCRIPT".data) ++
            (templ_T3a.data ++ default_salt.data ++ templ_T3b.data)) := by decide
    rw [htempl]
    rw [repl_aux_skip "PRE_LAUNCH_SCRIPT".data templ_T1.data _ (by decide)]
    rw [repl_aux_no_occ "PRE_LAUNCH_SCRIPT".data (by decide :
      has_occ 'D' "OCKER_COMPOSE_CONTENT".data
        (templ_T2.data ++ ('P' :: "RE_LAUNCH_SCRIPT".data) ++
          (templ_T3a.data ++ default_salt.data ++ templ_T3b.data)) = false)]
    have hPL : ("PRE_LAUNCH_SCRIPT".data : List Char) = 'P' :: "RE_LAUNCH_SCRIPT".data := by
      decide
    rw [hPL]
    rw [repl_aux_skip "B".data templ_T1.data _ (by decide)]
    rw [repl_aux_skip "B".data templ_T2.data _ (by decide)]
    rw [repl_aux_no_occ "B".data (by decide :
      has_occ 'P' "RE_LAUNCH_SCRIPT".data
        (templ_T3a.data ++ default_salt.data ++ templ_T3b.data) = false)]
    exact congrArg String.mk (by decide)
  · decide

/-- C2 amended: the literal rendering equals the fixed template with the
JSON-escaped compose text and boot-script text embedded verbatim at the
two placeholder positions (escaping exactly quote, backslash and control
characters, leaving forward slash and non-ASCII unescaped) and every
other template byte unchanged — provided the escaped compose text
contains no occurrence of the placeholder string `PRE_LAUNCH_SCRIPT`
(texts violating this proviso are corrupted by the second `str.replace`,
as the counterexample shows). -/
theorem claim2_amended (data : List (PyKey × PyVal)) (dct plt : String)
    (h1 : py_get data (.str "docker_compose_file") = some (.str dct))
    (h2 : py_get data (.str "pre_launch_script") = some (.str plt))
    (hocc : has_occ 'P' "RE_LAUNCH_SCRIPT".data
        (strip_outer (encode_basestring dct)).data = false) :
    to_dstack_format_json data =
      .ok (templ_T1 ++ strip_outer (encode_basestring dct) ++ templ_T2 ++
        strip_outer (encode_basestring plt) ++ templ_T3a ++ default_salt ++ templ_T3b) := by
  rw [to_dstack_format_json_str data dct plt h1 h2,
    render_string_level _ _ hocc]

/-- Witness for C2 amended at a small concrete manifest whose compose text
needs escaping. -/
theorem claim2_witness :
    py_get [(PyKey.str "docker_compose_file", PyVal.str "services:\n  app\n"),
            (PyKey.str "pre_launch_script", PyVal.str "echo \"hi\"\n")]
        (.str "docker_compose_file") = some (.str "services:\n  app\n")
    ∧ py_get [(PyKey.str "docker_compose_file", PyVal.str "services:\n  app\n"),
              (PyKey.str "pre_launch_script", PyVal.str "echo \"hi\"\n")]
        (.str "pre_launch_script") = some (.str "echo \"hi\"\n")
    ∧ has_occ 'P' "RE_LAUNCH_SCRIPT".data
        (strip_outer (encode_basestring "services:\n  app\n")).data = false
    ∧ to_dstack_format_json
        [(PyKey.str "docker_compose_file", PyVal.str "services:\n  app\n"),
         (PyKey.str "pre_launch_script", PyVal.str "echo \"hi\"\n")] =
      .ok (templ_T1 ++ strip_outer (encode_basestring "services:\n  app\n") ++ templ_T2 ++
        strip_outer (encode_basestring "echo \"hi\"\n") ++ templ_T3a ++ default_salt ++
        templ_T3b) :=
  ⟨rfl, rfl, by decide,
    claim2_amended _ "services:\n  app\n" "echo \"hi\"\n" rfl rfl (by decide)⟩

/-- C1 fails on the code: `to_dstack_format_json` never reads the salt
field — two manifests that differ only in their salt field (here with two
distinct 32-character salts) have byte-identical literal renderings, and
hence identical digests under `get_compose_hash`. -/
theorem claim1_counterexample :
    py_get [(PyKey.str "docker_compose_file", PyVal.str "c"),
            (PyKey.str "pre_launch_script", PyVal.str "p"),
            (PyKey.str "salt", PyVal.str "00000000000000000000000000000000")]
        (.str "salt") = some (.str "00000000000000000000000000000000")
    ∧ py_get [(PyKey.str "docker_compose_file", PyVal.str "c"),
              (PyKey.str "pre_launch_script", PyVal.str "p"),
              (PyKey.str "salt", PyVal.str "11111111111111111111111111111111")]
        (.str "salt") = some (.str "11111111111111111111111111111111")
    ∧ ("00000000000000000000000000000000" : String) ≠ "11111111111111111111111111111111"
    ∧ to_dstack_format_json
        [(PyKey.str "docker_compose_file", PyVal.str "c"),
         (PyKey.str "pre_launch_script", PyVal.str "p"),
         (PyKey.str "salt", PyVal.str "00000000000000000000000000000000")] =
      to_dstack_format_json
        [(PyKey.str "docker_compose_file", PyVal.str "c"),
         (PyKey.str "pre_launch_script", PyVal.str "p"),
         (PyKey.str "salt", PyVal.str "11111111111111111111111111111111")]
    ∧ get_compose_hash (fun x => x)
        [(PyKey.str "docker_compose_file", PyVal.str "c"),
         (PyKey.str "pre_launch_script", PyVal.str "p"),
         (PyKey.str "salt", PyVal.str "00000000000000000000000000000000")] =
      get_compose_hash (fun x => x)
        [(PyKey.str "docker_compose_file", PyVal.str "c"),
         (PyKey.str "pre_launch_script", PyVal.str "p"),
         (PyKey.str "salt", PyVal.str "11111111111111111111111111111111")] :=
  ⟨rfl, rfl, by decide, rfl, rfl⟩

/-- C1 amended: the literal renderer ignores the manifest's salt field and
always emits the fixed default constant at the salt position of the
template: (1) any two manifests agreeing on `docker_compose_file` and
`pre_launch_script` — in particular two manifests differing only in their
salt field — have byte-identical literal renderings and identical digests
under `get_compose_hash` for every hash function; (2) for a manifest whose
fields are strings (with the escaped compose text free of the placeholder
string `PRE_LAUNCH_SCRIPT`), the rendered output embeds the default salt
constant, whatever the manifest's salt field holds. -/
theorem claim1_amended :
    (∀ (d₁ d₂ : List (PyKey × PyVal)) (sha256_hex : String → String),
      py_get d₁ (.str "docker_compose_file") = py_get d₂ (.str "docker_compose_file") →
      py_get d₁ (.str "pre_launch_script") = py_get d₂ (.str "pre_launch_script") →
      to_dstack_format_json d₁ = to_dstack_format_json d₂ ∧
        get_compose_hash sha256_hex d₁ = get_compose_hash sha256_hex d₂)
    ∧ (∀ (data : List (PyKey × PyVal)) (dct plt : String),
        py_get data (.str "docker_compose_file") = some (.str dct) →
        py_get data (.str "pre_launch_script") = some (.str plt) →
        has_occ 'P' "RE_LAUNCH_SCRIPT".data
            (strip_outer (encode_basestring dct)).data = false →
        ∃ pre suf, to_dstack_format_json data = .ok (pre ++ default_salt ++ suf)) := by
  constructor
  · intro d₁ d₂ sha256_hex h1 h2
    have hrender : to_dstack_format_json d₁ = to_dstack_format_json d₂ := by
      unfold to_dstack_format_json
      rw [h1, h2]
    exact ⟨hrender, by unfold get_compose_hash; rw [hrender]⟩
  · intro data dct plt h1 h2 hocc
    refine ⟨templ_T1 ++ strip_outer (encode_basestring dct) ++ templ_T2 ++
      strip_outer (encode_basestring plt) ++ templ_T3a, templ_T3b, ?_⟩
    rw [to_dstack_format_json_str data dct plt h1 h2,
      render_string_level _ _ hocc]

/-- Witness for C1 amended: both conjuncts applied at small concrete
manifests. -/
theorem claim1_witness :
    (to_dstack_format_json
        [(PyKey.str "docker_compose_file", PyVal.str "c"),
         (PyKey.str "pre_launch_script", PyVal.str "p"),
         (PyKey.str "salt", PyVal.str "aaaa")] =
      to_dstack_format_json
        [(PyKey.str "docker_compose_file", PyVal.str "c"),
         (PyKey.str "pre_launch_script", PyVal.str "p"),
         (PyKey.str "salt", PyVal.str "bbbb")]
    ∧ get_compose_hash (fun x => x)
        [(PyKey.str "docker_compose_file", PyVal.str "c"),
         (PyKey.str "pre_launch_script", PyVal.str "p"),
         (PyKey.str "salt", PyVal.str "aaaa")] =
      get_compose_hash (fun x => x)
        [(PyKey.str "docker_compose_file", PyVal.str "c"),
         (PyKey.str "pre_launch_script", PyVal.str "p"),
         (PyKey.str "salt", PyVal.str "bbbb")])
    ∧ ∃ pre suf, to_dstack_format_json
        [(PyKey.str "docker_compose_file", PyVal.str "c"),
         (PyKey.str "pre_launch_script", PyVal.str "p"),
         (PyKey.str "salt", PyVal.str "aaaa")] = .ok (pre ++ default_salt ++ suf) :=
  ⟨claim1_amended.1 _ _ (fun x => x) rfl rfl,
    claim1_amended.2 _ "c" "p" rfl rfl (by decide)⟩

/-- `any` is invariant under permutation. -/
lemma perm_any {α : Type} {l₁ l₂ : List α} (h : l₁.Perm l₂) (p : α → Bool) :
    l₁.any p = l₂.any p := by
  rw [Bool.eq_iff_iff]
  simp only [List.any_eq_true]
  constructor
  · rintro ⟨a, ha, hp⟩; exact ⟨a, h.mem_iff.mp ha, hp⟩
  · rintro ⟨a, ha, hp⟩; exact ⟨a, h.mem_iff.mpr ha, hp⟩

/-- `any` respects pointwise equality on members. -/
lemma any_congr_mem {α : Type} : ∀ (l : List α) (p q : α → Bool),
    (∀ x ∈ l, p x = q x) → l.any p = l.any q
  | [], _, _, _ => rfl
  | x :: xs, p, q, h => by
      simp only [List.any_cons]
      rw [h x (List.mem_cons_self x xs),
        any_congr_mem xs p q (fun y hy => h y (List.mem_cons_of_mem x hy))]

/-- `sort_items` is a value-map (keys untouched). -/
lemma sort_items_eq_map : ∀ (l : List (PyKey × PyVal)),
    sort_items l = l.map (fun p => (p.1, sort_object p.2))
  | [] => by simp [sort_items]
  | (k, v) :: rest => by
      simp only [sort_items, List.map_cons]
      rw [sort_items_eq_map rest]

/-- `sort_list` is a map. -/
lemma sort_list_eq_map : ∀ (l : List PyVal), sort_list l = l.map sort_object
  | [] => by simp [sort_list]
  | v :: vs => by
      simp only [sort_list, List.map_cons]
      rw [sort_list_eq_map vs]

/-- `process_items` is a value-map (keys untouched). -/
lemma process_items_eq_map : ∀ (l : List (PyKey × PyVal)),
    process_items l = l.map (fun p => (p.1, process_data p.2))
  | [] => rfl
  | (k, v) :: rest => by
      simp only [process_items, List.map_cons]
      rw [process_items_eq_map rest]

/-- `process_list` is a map. -/
lemma process_list_eq_map : ∀ (l : List PyVal), process_list l = l.map process_data
  | [] => rfl
  | v :: vs => by
      simp only [process_list, List.map_cons]
      rw [process_list_eq_map vs]

/-- `scrub_items` is a value-map (keys untouched). -/
lemma scrub_items_eq_map : ∀ (l : List (PyKey × PyVal)),
    scrub_items l = l.map (fun p => (p.1, scrub_nonfinite p.2))
  | [] => rfl
  | (k, v) :: rest => by
      simp only [scrub_items, List.map_cons]
      rw [scrub_items_eq_map rest]

/-- `scrub_list` is a map. -/
lemma scrub_list_eq_map : ∀ (l : List PyVal), scrub_list l = l.map scrub_nonfinite
  | [] => rfl
  | v :: vs => by
      simp only [scrub_list, List.map_cons]
      rw [scrub_list_eq_map vs]

/-- `contains_object_items` as an `any` over the values. -/
lemma contains_object_items_eq_any : ∀ (l : List (PyKey × PyVal)),
    contains_object_items l = l.any (fun p => contains_object p.2)
  | [] => rfl
  | (k, v) :: rest => by
      simp only [contains_object_items, List.any_cons]
      rw [contains_object_items_eq_any rest]

/-- `contains_object_list` as an `any`. -/
lemma contains_object_list_eq_any : ∀ (l : List PyVal),
    contains_object_list l = l.any contains_object
  | [] => rfl
  | v :: vs => by
      simp only [contains_object_list, List.any_cons]
      rw [contains_object_list_eq_any vs]

/-- `orderedInsert` with the key-only order commutes with mapping over the
values. -/
lemma orderedInsert_map_snd (f : PyVal → PyVal) (a : PyKey × PyVal) :
    ∀ (l : List (PyKey × PyVal)),
      List.orderedInsert pair_le (a.1, f a.2) (l.map (fun p => (p.1, f p.2))) =
        (List.orderedInsert pair_le a l).map (fun p => (p.1, f p.2))
  | [] => rfl
  | b :: t => by
      simp only [List.map_cons, List.orderedInsert]
      have hc : pair_le (a.1, f a.2) (b.1, f b.2) = pair_le a b := rfl
      simp only [hc]
      by_cases h : pair_le a b
      · rw [if_pos h, if_pos h]
        simp
      · rw [if_neg h, if_neg h, List.map_cons]
        rw [orderedInsert_map_snd f a t]

/-- `insertionSort` with the key-only order commutes with mapping over the
values. -/
lemma insertionSort_map_snd (f : PyVal → PyVal) :
    ∀ (l : List (PyKey × PyVal)),
      List.insertionSort pair_le (l.map (fun p => (p.1, f p.2))) =
        (List.insertionSort pair_le l).map (fun p => (p.1, f p.2))
  | [] => rfl
  | a :: t => by
      simp only [List.map_cons, List.insertionSort]
      rw [insertionSort_map_snd f t, orderedInsert_map_snd f a]

/-- Sorting does not add or remove non-JSON objects. -/
lemma contains_object_sort : ∀ (v : PyVal), contains_object (sort_object v) = contains_object v
  | .none => by simp [sort_object]
  | .bool b => by simp [sort_object]
  | .int n => by simp [sort_object]
  | .float f => by simp [sort_object]
  | .str s => by simp [sort_object]
  | .object t => by simp [sort_object]
  | .list l => by
      have hs : sort_object (.list l) = .list (sort_list l) := by simp [sort_object]
      rw [hs]
      show contains_object_list (sort_list l) = contains_object_list l
      rw [sort_list_eq_map, contains_object_list_eq_any, contains_object_list_eq_any,
        List.any_map]
      exact any_congr_mem l _ _ (fun x _ => contains_object_sort x)
  | .dict l => by
      have hs : sort_object (.dict l) = .dict (sort_items (List.insertionSort pair_le l)) := by
        simp [sort_object]
      rw [hs]
      show contains_object_items (sort_items (List.insertionSort pair_le l)) =
        contains_object_items l
      rw [sort_items_eq_map, contains_object_items_eq_any, contains_object_items_eq_any,
        List.any_map]
      have h1 := any_congr_mem (List.insertionSort pair_le l)
        ((fun p => contains_object p.2) ∘ fun p => (p.1, sort_object p.2))
        (fun p => contains_object p.2)
        (fun x _ => by simpa [Function.comp] using contains_object_sort x.2)
      rw [h1]
      exact perm_any (List.perm_insertionSort pair_le l) _
termination_by v => sizeOf v
decreasing_by
  all_goals simp_wf
  all_goals rename_i hmem
  all_goals
    first
    | (have h1 := List.sizeOf_lt_of_mem hmem
       omega)
    | (have h0 : x ∈ l := (List.perm_insertionSort pair_le l).mem_iff.mp hmem
       have h1 := List.sizeOf_lt_of_mem h0
       have h2 : sizeOf x.2 ≤ sizeOf x := by
         obtain ⟨a, b⟩ := x
         simp
       omega)

mutual

/-- Non-finite scrubbing does not add or remove non-JSON objects. -/
lemma contains_object_process : ∀ (v : PyVal),
    contains_object (process_data v) = contains_object v
  | .none => rfl
  | .bool _ => rfl
  | .int _ => rfl
  | .float .nan => rfl
  | .float .inf => rfl
  | .float .neginf => rfl
  | .float (.finite _) => rfl
  | .str _ => rfl
  | .object _ => rfl
  | .list l => by
      show contains_object_list (process_list l) = contains_object_list l
      exact contains_object_process_list l
  | .dict l => by
      show contains_object_items (process_items l) = contains_object_items l
      exact contains_object_process_items l

/-- Elementwise version of `contains_object_process`. -/
lemma contains_object_process_list : ∀ (l : List PyVal),
    contains_object_list (process_list l) = contains_object_list l
  | [] => rfl
  | v :: vs => by
      show (contains_object (process_data v) || contains_object_list (process_list vs)) = _
      rw [contains_object_process v, contains_object_process_list vs]
      rfl

/-- Itemwise version of `contains_object_process`. -/
lemma contains_object_process_items : ∀ (l : List (PyKey × PyVal)),
    contains_object_items (process_items l) = contains_object_items l
  | [] => rfl
  | (k, v) :: rest => by
      show (contains_object (process_data v) || contains_object_items (process_items rest)) = _
      rw [contains_object_process v, contains_object_process_items rest]
      rfl

end

mutual

/-- `json.dumps` succeeds exactly on values with no non-JSON object
anywhere inside (keys of all four embedded key types are coerced, never
rejected). -/
lemma dumps_isOk (isep ksep : String) : ∀ (v : PyVal),
    (json_dumps isep ksep v).isOk = !(contains_object v)
  | .none => rfl
  | .bool true => rfl
  | .bool false => rfl
  | .int _ => rfl
  | .float _ => rfl
  | .str _ => rfl
  | .object _ => rfl
  | .list l => by
      have h := dumps_elems_isOk isep ksep l
      show (match dumps_elems isep ksep l with
        | .ok parts => Except.ok ("[" ++ String.intercalate isep parts ++ "]")
        | .error e => Except.error e).isOk = !(contains_object_list l)
      cases he : dumps_elems isep ksep l with
      | ok parts => rw [he] at h; exact h
      | error e => rw [he] at h; exact h
  | .dict l => by
      have h := dumps_items_isOk isep ksep l
      show (match dumps_items isep ksep l with
        | .ok parts => Except.ok ("\x7b" ++ String.intercalate isep parts ++ "\x7d")
        | .error e => Except.error e).isOk = !(contains_object_items l)
      cases he : dumps_items isep ksep l with
      | ok parts => rw [he] at h; exact h
      | error e => rw [he] at h; exact h

/-- Element serialization succeeds exactly when no element contains a
non-JSON object. -/
lemma dumps_elems_isOk (isep ksep : String) : ∀ (l : List PyVal),
    (dumps_elems isep ksep l).isOk = !(contains_object_list l)
  | [] => rfl
  | v :: vs => by
      have h1 := dumps_isOk isep ksep v
      have h2 := dumps_elems_isOk isep ksep vs
      show (match json_dumps isep ksep v with
        | .error e => Except.error e
        | .ok s =>
            match dumps_elems isep ksep vs with
            | .error e => Except.error e
            | .ok rest => Except.ok (s :: rest)).isOk =
        !(contains_object v || contains_object_list vs)
      cases hd : json_dumps isep ksep v with
      | error e =>
          rw [hd] at h1
          have hv : contains_object v = true := by simpa using h1.symm
          simp [Except.isOk, Except.toBool, hv]
      | ok s =>
          rw [hd] at h1
          have hv : contains_object v = false := by simpa using h1.symm
          cases he : dumps_elems isep ksep vs with
          | error e =>
              rw [he] at h2
              have hvs : contains_object_list vs = true := by simpa using h2.symm
              simp [Except.isOk, Except.toBool, hv, hvs]
          | ok rest =>
              rw [he] at h2
              have hvs : contains_object_list vs = false := by simpa using h2.symm
              simp [Except.isOk, Except.toBool, hv, hvs]

/-- Item serialization succeeds exactly when no value contains a non-JSON
object. -/
lemma dumps_items_isOk (isep ksep : String) : ∀ (l : List (PyKey × PyVal)),
    (dumps_items isep ksep l).isOk = !(contains_object_items l)
  | [] => rfl
  | (k, v) :: rest => by
      have h1 := dumps_isOk isep ksep v
      have h2 := dumps_items_isOk isep ksep rest
      show (match json_dumps isep ksep v with
        | .error e => Except.error e
        | .ok s =>
            match dumps_items isep ksep rest with
            | .error e => Except.error e
            | .ok rs => Except.ok ((key_json k ++ ksep ++ s) :: rs)).isOk =
        !(contains_object v || contains_object_items rest)
      cases hd : json_dumps isep ksep v with
      | error e =>
          rw [hd] at h1
          have hv : contains_object v = true := by simpa using h1.symm
          simp [Except.isOk, Except.toBool, hv]
      | ok s =>
          rw [hd] at h1
          have hv : contains_object v = false := by simpa using h1.symm
          cases he : dumps_items isep ksep rest with
          | error e =>
              rw [he] at h2
              have hvs : contains_object_items rest = true := by simpa using h2.symm
              simp [Except.isOk, Except.toBool, hv, hvs]
          | ok rs =>
              rw [he] at h2
              have hvs : contains_object_items rest = false := by simpa using h2.symm
              simp [Except.isOk, Except.toBool, hv, hvs]

end

mutual

/-- Values inside the JSON Value sum type contain no non-JSON object. -/
lemma is_json_no_object : ∀ (v : PyVal),
    is_json_value v = true → contains_object v = false
  | .none, _ => rfl
  | .bool _, _ => rfl
  | .int _, _ => rfl
  | .float _, _ => rfl
  | .str _, _ => rfl
  | .list l, h => by
      show contains_object_list l = false
      exact is_json_no_object_list l (by simpa [is_json_value] using h)
  | .dict l, h => by
      show contains_object_items l = false
      exact is_json_no_object_items l (by simpa [is_json_value] using h)

/-- Elementwise version of `is_json_no_object`. -/
lemma is_json_no_object_list : ∀ (l : List PyVal),
    is_json_list l = true → contains_object_list l = false
  | [], _ => rfl
  | v :: vs, h => by
      rw [show is_json_list (v :: vs) = (is_json_value v && is_json_list vs) from rfl,
        Bool.and_eq_true] at h
      show (contains_object v || contains_object_list vs) = false
      rw [is_json_no_object v h.1, is_json_no_object_list vs h.2]
      rfl

/-- Itemwise version of `is_json_no_object`. -/
lemma is_json_no_object_items : ∀ (l : List (PyKey × PyVal)),
    is_json_items l = true → contains_object_items l = false
  | [], _ => rfl
  | (k, v) :: rest, h => by
      simp only [is_json_items, Bool.and_eq_true] at h
      show (contains_object v || contains_object_items rest) = false
      rw [is_json_no_object v h.1.2, is_json_no_object_items rest h.2]
      rfl

end

/-- The canonical serializer succeeds exactly on values free of non-JSON
objects. -/
lemma to_det_isOk (v : PyVal) :
    (to_deterministic_json v).isOk = !(contains_object v) := by
  rw [to_deterministic_json, dumps_isOk, contains_object_process, contains_object_sort]

/-- Scrubbing non-finite floats before canonicalization does not change
the processed, sorted value (the serializer's own pipeline performs the
same replacement). -/
lemma scrub_preserves : ∀ (v : PyVal),
    process_data (sort_object (scrub_nonfinite v)) = process_data (sort_object v)
  | .none => rfl
  | .bool _ => rfl
  | .int _ => rfl
  | .float .nan => by simp [scrub_nonfinite, sort_object, process_data, convert_special_values]
  | .float .inf => by simp [scrub_nonfinite, sort_object, process_data, convert_special_values]
  | .float .neginf => by
      simp [scrub_nonfinite, sort_object, process_data, convert_special_values]
  | .float (.finite _) => rfl
  | .str _ => rfl
  | .object _ => rfl
  | .list l => by
      have h1 : scrub_nonfinite (.list l) = .list (scrub_list l) := by simp [scrub_nonfinite]
      have h2 : ∀ (m : List PyVal), sort_object (.list m) = .list (sort_list m) := by
        intro m; simp [sort_object]
      rw [h1, h2, h2]
      show PyVal.list (process_list (sort_list (scrub_list l))) =
        PyVal.list (process_list (sort_list l))
      congr 1
      rw [scrub_list_eq_map, sort_list_eq_map, sort_list_eq_map, process_list_eq_map,
        process_list_eq_map, List.map_map, List.map_map, List.map_map]
      exact List.map_congr_left (fun x _ => by
        simpa [Function.comp] using scrub_preserves x)
  | .dict l => by
      have h1 : scrub_nonfinite (.dict l) = .dict (scrub_items l) := by simp [scrub_nonfinite]
      have h2 : ∀ (m : List (PyKey × PyVal)), sort_object (.dict m) =
          .dict (sort_items (List.insertionSort pair_le m)) := by
        intro m; simp [sort_object]
      rw [h1, h2, h2]
      show PyVal.dict (process_items (sort_items
          (List.insertionSort pair_le (scrub_items l)))) =
        PyVal.dict (process_items (sort_items (List.insertionSort pair_le l)))
      congr 1
      rw [scrub_items_eq_map, insertionSort_map_snd, sort_items_eq_map, sort_items_eq_map,
        process_items_eq_map, process_items_eq_map, List.map_map, List.map_map, List.map_map]
      exact List.map_congr_left (fun x _ => by
        simpa [Function.comp] using congrArg (fun w => (x.1, w)) (scrub_preserves x.2))
termination_by v => sizeOf v
decreasing_by
  all_goals simp_wf
  all_goals rename_i hmem
  all_goals
    first
    | (have h1 := List.sizeOf_lt_of_mem hmem
       omega)
    | (have h0 : x ∈ l := (List.perm_insertionSort pair_le l).mem_iff.mp hmem
       have h1 := List.sizeOf_lt_of_mem h0
       have h2 : sizeOf x.2 ≤ sizeOf x := by
         obtain ⟨a, b⟩ := x
         simp
       omega)

/-- Concrete canonicalization of `{"x": NaN}`. -/
lemma to_det_nan_eval :
    to_deterministic_json (.dict [(.str "x", .float .nan)]) = .ok "\x7b\"x\":null\x7d" := by
  have hs : sort_object (.dict [(.str "x", .float .nan)]) =
      .dict [(.str "x", .float .nan)] := by
    simp [sort_object, sort_items, List.insertionSort, List.orderedInsert]
  rw [to_deterministic_json, hs]
  rfl

/-- Concrete canonicalization of `{"x": null}`. -/
lemma to_det_null_eval :
    to_deterministic_json (.dict [(.str "x", .none)]) = .ok "\x7b\"x\":null\x7d" := by
  have hs : sort_object (.dict [(.str "x", .none)]) = .dict [(.str "x", .none)] := by
    simp [sort_object, sort_items, List.insertionSort, List.orderedInsert]
  rw [to_deterministic_json, hs]
  rfl

/-- Concrete canonicalization of the int-keyed mapping `{1: "a"}`: the key
is silently coerced to the string `"1"`. -/
lemma to_det_int_key_eval :
    to_deterministic_json (.dict [(.int 1, .str "a")]) = .ok "\x7b\"1\":\"a\"\x7d" := by
  have hs : sort_object (.dict [(.int 1, .str "a")]) = .dict [(.int 1, .str "a")] := by
    simp [sort_object, sort_items, List.insertionSort, List.orderedInsert]
  rw [to_deterministic_json, hs]
  rfl

/-- C6: the canonical serializer replaces every non-finite float (NaN and
±Infinity), at every nesting depth, with Null: canonicalizing any value
equals canonicalizing its non-finite-scrubbed form, and in particular
`canonicalize {"x": NaN}` yields the same bytes as
`canonicalize {"x": null}`, namely the string `{"x":null}`. -/
theorem claim6_nonfinite_replaced_by_null :
    to_deterministic_json (.dict [(.str "x", .float .nan)]) = .ok "\x7b\"x\":null\x7d"
    ∧ to_deterministic_json (.dict [(.str "x", .float .nan)]) =
        to_deterministic_json (.dict [(.str "x", .none)])
    ∧ ∀ v : PyVal, to_deterministic_json v = to_deterministic_json (scrub_nonfinite v) := by
  refine ⟨to_det_nan_eval, by rw [to_det_nan_eval, to_det_null_eval], ?_⟩
  intro v
  rw [to_deterministic_json, to_deterministic_json, scrub_preserves]

/-- C7 fails on the code as stated: the mapping `{1: "a"}` lies outside
the JSON Value sum type (non-string key), yet the canonical serializer
does not signal a failure — it silently produces output with the key
coerced to the string `"1"`. -/
theorem claim7_counterexample :
    is_json_value (.dict [(.int 1, .str "a")]) = false
    ∧ to_deterministic_json (.dict [(.int 1, .str "a")]) = .ok "\x7b\"1\":\"a\"\x7d" :=
  ⟨rfl, to_det_int_key_eval⟩

/-- C7 amended: the canonical serializer succeeds on every value inside
the JSON Value sum type; on values whose mappings are string-keyed and
duplicate-free (the sum type's mapping domain, where the embedded key
comparison is exact), its only error condition is the presence of a
non-JSON scalar (a non-serializable object, Python `TypeError`); and
mappings with `int`/`bool`/`None` keys — outside the sum type — are not
rejected: their keys are silently coerced to strings (as the int-keyed
example shows).  Mixed-key mappings, on which Python's `sorted` itself
raises `TypeError`, lie outside the embedding's exact region and outside
this statement. -/
theorem claim7_amended :
    (∀ v : PyVal, is_json_value v = true → (to_deterministic_json v).isOk = true)
    ∧ (∀ v : PyVal, wf_str_keys v = true →
        (to_deterministic_json v).isOk = !(contains_object v))
    ∧ (∀ t : String, (to_deterministic_json (.object t)).isOk = false)
    ∧ to_deterministic_json (.dict [(.int 1, .str "a")]) = .ok "\x7b\"1\":\"a\"\x7d" := by
  refine ⟨?_, fun v _ => to_det_isOk v, ?_, to_det_int_key_eval⟩
  · intro v h
    rw [to_det_isOk, is_json_no_object v h]
    rfl
  · intro t
    rw [to_det_isOk]
    rfl

/-- Witness for C7 amended: the success conjunct at a concrete JSON value,
and the error-characterization conjunct at a string-keyed mapping holding
a non-serializable object (fails) and at the same mapping with a plain
value (succeeds). -/
theorem claim7_witness :
    (is_json_value (.dict [(.str "k", .list [.int 3, .str "v"])]) = true
      ∧ (to_deterministic_json (.dict [(.str "k", .list [.int 3, .str "v"])])).isOk = true)
    ∧ (wf_str_keys (.dict [(.str "k", .object "set")]) = true
      ∧ (to_deterministic_json (.dict [(.str "k", .object "set")])).isOk =
          !(contains_object (.dict [(.str "k", .object "set")]))) :=
  ⟨⟨rfl, claim7_amended.1 (.dict [(.str "k", .list [.int 3, .str "v"])]) rfl⟩,
   ⟨by decide, claim7_amended.2.1 (.dict [(.str "k", .object "set")]) (by decide)⟩⟩

/-- Every key of a list passing `all_str_keys` is a string key. -/
lemma all_str_keys_mem : ∀ {l : List (PyKey × PyVal)},
    all_str_keys (l.map Prod.fst) = true → ∀ p ∈ l, ∃ s, p.1 = PyKey.str s := by
  intro l
  induction l with
  | nil => intro _ p hp; cases hp
  | cons a t ih =>
      intro h p hp
      obtain ⟨k, v⟩ := a
      cases k with
      | str s =>
          rcases List.mem_cons.mp hp with rfl | hp'
          · exact ⟨s, rfl⟩
          · exact ih (by simpa [all_str_keys] using h) p hp'
      | int n => simp [all_str_keys] at h
      | bool b => simp [all_str_keys] at h
      | none => simp [all_str_keys] at h

/-- Membership form of itemwise well-formedness. -/
lemma wf_items_mem : ∀ (l : List (PyKey × PyVal)),
    wf_str_keys_items l = true ↔ ∀ p ∈ l, wf_str_keys p.2 = true := by
  intro l
  induction l with
  | nil => simp [wf_str_keys_items]
  | cons a t ih =>
      obtain ⟨k, v⟩ := a
      rw [show wf_str_keys_items ((k, v) :: t) = (wf_str_keys v && wf_str_keys_items t)
        from by simp [wf_str_keys_items], Bool.and_eq_true, ih]
      constructor
      · rintro ⟨h1, h2⟩ p hp
        rcases List.mem_cons.mp hp with rfl | hp'
        · exact h1
        · exact h2 p hp'
      · intro h
        exact ⟨h (k, v) (List.mem_cons_self _ _), fun p hp => h p (List.mem_cons_of_mem _ hp)⟩

/-- Membership form of elementwise well-formedness. -/
lemma wf_list_mem : ∀ (l : List PyVal),
    wf_str_keys_list l = true ↔ ∀ v ∈ l, wf_str_keys v = true := by
  intro l
  induction l with
  | nil => simp [wf_str_keys_list]
  | cons a t ih =>
      rw [show wf_str_keys_list (a :: t) = (wf_str_keys a && wf_str_keys_list t)
        from by simp [wf_str_keys_list], Bool.and_eq_true, ih]
      constructor
      · rintro ⟨h1, h2⟩ p hp
        rcases List.mem_cons.mp hp with rfl | hp'
        · exact h1
        · exact h2 p hp'
      · intro h
        exact ⟨h a (List.mem_cons_self _ _), fun p hp => h p (List.mem_cons_of_mem _ hp)⟩

/-- Transitivity of the item order on string-keyed items. -/
lemma pair_le_trans_str {a b c : PyKey × PyVal}
    (ha : ∃ s, a.1 = PyKey.str s) (hb : ∃ s, b.1 = PyKey.str s) (hc : ∃ s, c.1 = PyKey.str s)
    (h1 : pair_le a b) (h2 : pair_le b c) : pair_le a c := by
  obtain ⟨sa, hka⟩ := ha
  obtain ⟨sb, hkb⟩ := hb
  obtain ⟨sc, hkc⟩ := hc
  rw [pair_le, hka, hkc]
  rw [pair_le, hka, hkb] at h1
  rw [pair_le, hkb, hkc] at h2
  simp only [key_le, decide_eq_true_eq] at h1 h2 ⊢
  exact le_trans h1 h2

/-- Totality of the item order on string-keyed items. -/
lemma pair_le_total_str {a b : PyKey × PyVal}
    (ha : ∃ s, a.1 = PyKey.str s) (hb : ∃ s, b.1 = PyKey.str s)
    (h : ¬pair_le a b) : pair_le b a := by
  obtain ⟨sa, hka⟩ := ha
  obtain ⟨sb, hkb⟩ := hb
  rw [pair_le, hka, hkb] at h
  rw [pair_le, hkb, hka]
  simp only [key_le, decide_eq_true_eq] at h ⊢
  exact le_of_not_le h

/-- `orderedInsert` preserves sortedness on string-keyed items. -/
lemma sorted_orderedInsert_str (a : PyKey × PyVal) :
    ∀ (l : List (PyKey × PyVal)),
      (∃ s, a.1 = PyKey.str s) → (∀ p ∈ l, ∃ s, p.1 = PyKey.str s) →
      List.Sorted pair_le l →
      List.Sorted pair_le (List.orderedInsert pair_le a l)
  | [], _, _, _ => by simp [List.orderedInsert, List.Sorted]
  | b :: t, ha, hl, hs => by
      rw [List.orderedInsert]
      by_cases h : pair_le a b
      · rw [if_pos h]
        rw [List.sorted_cons]
        refine ⟨?_, hs⟩
        intro x hx
        rcases List.mem_cons.mp hx with rfl | hx'
        · exact h
        · have hb := hl b (List.mem_cons_self _ _)
          have hxs := hl x (List.mem_cons_of_mem _ hx')
          exact pair_le_trans_str ha hb hxs h ((List.sorted_cons.mp hs).1 x hx')
      · rw [if_neg h]
        rw [List.sorted_cons] at hs ⊢
        obtain ⟨hbt, hst⟩ := hs
        have hb := hl b (List.mem_cons_self _ _)
        refine ⟨?_, sorted_orderedInsert_str a t ha
          (fun p hp => hl p (List.mem_cons_of_mem _ hp)) hst⟩
        intro x hx
        rcases (List.mem_orderedInsert pair_le).mp hx with rfl | hx'
        · exact pair_le_total_str ha hb h
        · exact hbt x hx'

/-- `insertionSort` sorts string-keyed item lists. -/
lemma sorted_insertionSort_str :
    ∀ (l : List (PyKey × PyVal)), (∀ p ∈ l, ∃ s, p.1 = PyKey.str s) →
      List.Sorted pair_le (List.insertionSort pair_le l)
  | [], _ => by simp [List.insertionSort, List.Sorted]
  | a :: t, hl => by
      rw [List.insertionSort]
      have hmem : ∀ p ∈ List.insertionSort pair_le t, ∃ s, p.1 = PyKey.str s := by
        intro p hp
        exact hl p (List.mem_cons_of_mem _ ((List.perm_insertionSort pair_le t).mem_iff.mp hp))
      exact sorted_orderedInsert_str a _ (hl a (List.mem_cons_self _ _)) hmem
        (sorted_insertionSort_str t (fun p hp => hl p (List.mem_cons_of_mem _ hp)))

/-- A `pair_le`-sorted string-keyed list with distinct keys is strictly
sorted. -/
lemma sorted_le_to_lt {m : List (PyKey × PyVal)}
    (hsort : List.Sorted pair_le m) (hnodup : (m.map Prod.fst).Nodup)
    (hstr : ∀ p ∈ m, ∃ s, p.1 = PyKey.str s) :
    List.Sorted pair_lt m := by
  have hne : m.Pairwise (fun a b : PyKey × PyVal => a.1 ≠ b.1) :=
    (List.pairwise_map).mp hnodup
  have hand := List.Pairwise.and hsort hne
  refine List.Pairwise.imp_of_mem ?_ hand
  intro a b ha hb hab
  obtain ⟨hle, hneq⟩ := hab
  obtain ⟨sa, hka⟩ := hstr a ha
  obtain ⟨sb, hkb⟩ := hstr b hb
  rw [pair_le, hka, hkb] at hle
  rw [pair_lt, hka, hkb]
  simp only [key_le, decide_eq_true_eq] at hle
  simp only [key_lt, decide_eq_true_eq]
  refine lt_of_le_of_ne hle ?_
  intro hcontra
  apply hneq
  rw [hka, hkb, hcontra]

/-- Insertion sort by key is invariant under permutation of a
string-keyed, duplicate-free item list. -/
lemma insertionSort_perm_eq {l₁ l₂ : List (PyKey × PyVal)} (hperm : l₁.Perm l₂)
    (hstr : ∀ p ∈ l₁, ∃ s, p.1 = PyKey.str s) (hnodup : (l₁.map Prod.fst).Nodup) :
    List.insertionSort pair_le l₁ = List.insertionSort pair_le l₂ := by
  have hstr₂ : ∀ p ∈ l₂, ∃ s, p.1 = PyKey.str s := fun p hp =>
    hstr p (hperm.mem_iff.mpr hp)
  have hnodup₂ : (l₂.map Prod.fst).Nodup := ((hperm.map Prod.fst).nodup_iff).mp hnodup
  have hp₁ : (List.insertionSort pair_le l₁).Perm (List.insertionSort pair_le l₂) :=
    ((List.perm_insertionSort pair_le l₁).trans hperm).trans
      (List.perm_insertionSort pair_le l₂).symm
  have hs₁ : List.Sorted pair_lt (List.insertionSort pair_le l₁) := by
    refine sorted_le_to_lt (sorted_insertionSort_str l₁ hstr) ?_ ?_
    · exact (((List.perm_insertionSort pair_le l₁).map Prod.fst).nodup_iff).mpr hnodup
    · intro p hp
      exact hstr p ((List.perm_insertionSort pair_le l₁).mem_iff.mp hp)
  have hs₂ : List.Sorted pair_lt (List.insertionSort pair_le l₂) := by
    refine sorted_le_to_lt (sorted_insertionSort_str l₂ hstr₂) ?_ ?_
    · exact (((List.perm_insertionSort pair_le l₂).map Prod.fst).nodup_iff).mpr hnodup₂
    · intro p hp
      exact hstr₂ p ((List.perm_insertionSort pair_le l₂).mem_iff.mp hp)
  have hanti : IsAntisymm (PyKey × PyVal) pair_lt := by
    constructor
    intro a b h1 h2
    cases ha : a.1 with
    | str sa =>
        cases hb : b.1 with
        | str sb =>
            rw [pair_lt, ha, hb] at h1
            rw [pair_lt, hb, ha] at h2
            simp only [key_lt, decide_eq_true_eq] at h1 h2
            exact absurd h1 (lt_asymm h2)
        | int n => rw [pair_lt, ha, hb] at h1; simp [key_lt] at h1
        | bool c => rw [pair_lt, ha, hb] at h1; simp [key_lt] at h1
        | none => rw [pair_lt, ha, hb] at h1; simp [key_lt] at h1
    | int n => rw [pair_lt, ha] at h1; simp [key_lt] at h1
    | bool c => rw [pair_lt, ha] at h1; simp [key_lt] at h1
    | none => rw [pair_lt, ha] at h1; simp [key_lt] at h1
  exact @List.eq_of_perm_of_sorted _ _ hanti _ _ hp₁ hs₁ hs₂

mutual

/-- `sort_object` is invariant under permutation of dictionary insertion
order, on values whose dictionaries are string-keyed and duplicate-free. -/
lemma sort_object_pe : ∀ (v w : PyVal), PermEquiv v w →
    wf_str_keys v = true → wf_str_keys w = true → sort_object v = sort_object w
  | _, _, .none, _, _ => rfl
  | _, _, .bool _, _, _ => rfl
  | _, _, .int _, _, _ => rfl
  | _, _, .float _, _, _ => rfl
  | _, _, .str _, _, _ => rfl
  | _, _, .object _, _, _ => rfl
  | _, _, @PermEquiv.list l₁ l₂ hl, hv, hw => by
      have h1 : ∀ m, sort_object (PyVal.list m) = .list (sort_list m) := fun m => by
        simp [sort_object]
      rw [h1, h1]
      congr 1
      exact sort_list_pe l₁ l₂ hl (by simpa [wf_str_keys] using hv)
        (by simpa [wf_str_keys] using hw)
  | _, _, @PermEquiv.dict l₁ l' l₂ hitems hperm, hv, hw => by
      simp only [wf_str_keys, Bool.and_eq_true, decide_eq_true_eq] at hv hw
      have h2 : ∀ m, sort_object (PyVal.dict m) =
          .dict (sort_items (List.insertionSort pair_le m)) := fun m => by
        simp [sort_object]
      rw [h2, h2]
      congr 1
      rw [sort_items_eq_map, sort_items_eq_map, ← insertionSort_map_snd,
        ← insertionSort_map_snd]
      have hvals₁ : ∀ p ∈ l₁, wf_str_keys p.2 = true := (wf_items_mem l₁).mp hv.2
      have hvals₂ : ∀ p ∈ l₂, wf_str_keys p.2 = true := (wf_items_mem l₂).mp hw.2
      have hvals' : ∀ p ∈ l', wf_str_keys p.2 = true := fun p hp =>
        hvals₂ p (hperm.subset hp)
      have hmapeq : l₁.map (fun p => (p.1, sort_object p.2)) =
          l'.map (fun p => (p.1, sort_object p.2)) :=
        sort_items_pe l₁ l' hitems hvals₁ hvals'
      rw [hmapeq]
      have hkeys : ∀ (m : List (PyKey × PyVal)),
          (m.map (fun p => (p.1, sort_object p.2))).map Prod.fst = m.map Prod.fst := by
        intro m
        rw [List.map_map]
        rfl
      refine insertionSort_perm_eq (hperm.map _) ?_ ?_
      · intro p hp
        rw [List.mem_map] at hp
        obtain ⟨q, hq, rfl⟩ := hp
        exact all_str_keys_mem hw.1.1 q (hperm.subset hq)
      · rw [hkeys]
        exact (((hperm.map Prod.fst).nodup_iff).mpr hw.1.2)
termination_by v _ _ _ _ => sizeOf v
decreasing_by
  all_goals simp_wf

/-- Elementwise invariance for sequences (order preserved). -/
lemma sort_list_pe : ∀ (l₁ l₂ : List PyVal), PermEquivList l₁ l₂ →
    wf_str_keys_list l₁ = true → wf_str_keys_list l₂ = true →
    sort_list l₁ = sort_list l₂
  | _, _, .nil, _, _ => rfl
  | _, _, @PermEquivList.cons v w vs ws hpe hrest, h₁, h₂ => by
      simp only [wf_str_keys_list, Bool.and_eq_true] at h₁ h₂
      have e1 : ∀ (x : PyVal) (xs : List PyVal),
          sort_list (x :: xs) = sort_object x :: sort_list xs := fun x xs => by
        simp [sort_list]
      rw [e1, e1, sort_object_pe v w hpe h₁.1 h₂.1, sort_list_pe vs ws hrest h₁.2 h₂.2]
termination_by l₁ _ _ _ _ => sizeOf l₁
decreasing_by
  all_goals simp_wf
  all_goals omega

/-- Pointwise invariance for dict items with equal keys. -/
lemma sort_items_pe : ∀ (l₁ l' : List (PyKey × PyVal)), PermEquivItems l₁ l' →
    (∀ p ∈ l₁, wf_str_keys p.2 = true) → (∀ p ∈ l', wf_str_keys p.2 = true) →
    l₁.map (fun p => (p.1, sort_object p.2)) = l'.map (fun p => (p.1, sort_object p.2))
  | _, _, .nil, _, _ => rfl
  | _, _, @PermEquivItems.cons k v w ps qs hpe hrest, h₁, h₂ => by
      simp only [List.map_cons]
      rw [sort_object_pe v w hpe (h₁ (k, v) (List.mem_cons_self _ _))
          (h₂ (k, w) (List.mem_cons_self _ _)),
        sort_items_pe ps qs hrest (fun p hp => h₁ p (List.mem_cons_of_mem _ hp))
          (fun p hp => h₂ p (List.mem_cons_of_mem _ hp))]
termination_by l₁ _ _ _ _ => sizeOf l₁
decreasing_by
  all_goals simp_wf
  all_goals omega

end

/-- C5: key-order invariance of the canonical serializer: for well-formed
values (every mapping string-keyed and duplicate-free, as for any value
arising from Python dicts of JSON data), permuting the insertion order of
any mapping's items — at any nesting depth, including mappings inside
sequences — produces a byte-identical canonical serialization; moreover
the sorted form has its keys in lexicographic code-point order, and
sequence element order is preserved (elementwise recursion, no
reordering). -/
theorem claim5_key_order_invariance :
    (∀ v w : PyVal, PermEquiv v w → wf_str_keys v = true → wf_str_keys w = true →
      to_deterministic_json v = to_deterministic_json w)
    ∧ (∀ l : List (PyKey × PyVal), (∀ p ∈ l, ∃ s, p.1 = PyKey.str s) →
        sort_object (.dict l) = .dict (sort_items (List.insertionSort pair_le l))
        ∧ List.Sorted pair_le (sort_items (List.insertionSort pair_le l)))
    ∧ (∀ l : List PyVal, sort_object (.list l) = .list (l.map sort_object)) := by
  refine ⟨?_, ?_, ?_⟩
  · intro v w hpe hv hw
    rw [to_deterministic_json, to_deterministic_json, sort_object_pe v w hpe hv hw]
  · intro l hstr
    constructor
    · simp [sort_object]
    · rw [sort_items_eq_map]
      have hsorted := sorted_insertionSort_str l hstr
      exact (List.pairwise_map).mpr hsorted
  · intro l
    rw [show sort_object (.list l) = .list (sort_list l) from by simp [sort_object],
      sort_list_eq_map]

/-- Witness for C5: two concrete nested mappings that differ only in item
insertion order (at both depths) canonicalize identically. -/
theorem claim5_witness :
    PermEquiv
      (.dict [(.str "b", .int 1),
              (.str "a", .dict [(.str "y", .none), (.str "x", .bool true)])])
      (.dict [(.str "a", .dict [(.str "x", .bool true), (.str "y", .none)]),
              (.str "b", .int 1)])
    ∧ wf_str_keys
        (.dict [(.str "b", .int 1),
                (.str "a", .dict [(.str "y", .none), (.str "x", .bool true)])]) = true
    ∧ wf_str_keys
        (.dict [(.str "a", .dict [(.str "x", .bool true), (.str "y", .none)]),
                (.str "b", .int 1)]) = true
    ∧ to_deterministic_json
        (.dict [(.str "b", .int 1),
                (.str "a", .dict [(.str "y", .none), (.str "x", .bool true)])]) =
      to_deterministic_json
        (.dict [(.str "a", .dict [(.str "x", .bool true), (.str "y", .none)]),
                (.str "b", .int 1)]) := by
  have hinner : PermEquiv
      (.dict [(.str "y", .none), (.str "x", .bool true)])
      (.dict [(.str "x", .bool true), (.str "y", .none)]) :=
    PermEquiv.dict
      (PermEquivItems.cons PermEquiv.none
        (PermEquivItems.cons (PermEquiv.bool true) PermEquivItems.nil))
      (List.Perm.swap (PyKey.str "x", PyVal.bool true) (PyKey.str "y", PyVal.none) [])
  have hpe : PermEquiv
      (.dict [(.str "b", .int 1),
              (.str "a", .dict [(.str "y", .none), (.str "x", .bool true)])])
      (.dict [(.str "a", .dict [(.str "x", .bool true), (.str "y", .none)]),
              (.str "b", .int 1)]) :=
    PermEquiv.dict
      (PermEquivItems.cons (PermEquiv.int 1)
        (PermEquivItems.cons hinner PermEquivItems.nil))
      (List.Perm.swap
        (PyKey.str "a", PyVal.dict [(.str "x", .bool true), (.str "y", .none)])
        (PyKey.str "b", PyVal.int 1) [])
  exact ⟨hpe, by decide, by decide,
    claim5_key_order_invariance.1 _ _ hpe (by decide) (by decide)⟩
